import Mathlib

/-!
Verification of the conditional-sync engine of `terraform-provider-synclocal`.

The Go sources under `internal/provider` are shallowly embedded here:

* Strings and file contents are byte lists (`GoStr := List Nat`, each element a
  byte value `< 256`), matching the byte-oriented nature of Go strings, paths,
  and URL escaping.
* The filesystem is a function from paths to a `FileState` (present file,
  absent, or inaccessible with an error message), threaded explicitly through
  every operation.  `inaccessible` models stat/open failures other than
  not-found (e.g. permission errors).
* Fallible Go calls return `Except`/`Option`; the `os.IsNotExist` classification
  is modelled by a boolean field on the error value, mirroring the fact that
  `os.IsNotExist` does not unwrap errors wrapped by `fmt.Errorf("...: %w", err)`.
* Each operation additionally returns the ordered list of I/O `Effect`s it
  performed (stat, open-for-read, open-for-write, byte copy, chmod, remove,
  HTTP round trip), so that frame properties ("no byte copy", "no network
  request") are statable.
* The outcome of the streaming `io.Copy` calls is an explicit oracle
  (`CopyOutcome`), since in-memory byte lists cannot fail to read; likewise the
  outcome of `http.Client.Do` is an explicit `HttpResult` oracle.
-/

deriving instance DecidableEq for Except

/-- Byte strings: Go strings / paths / file contents as lists of byte values. -/
abbrev GoStr := List Nat

/-- Byte string literal helper; all literals used in this file are ASCII, for
which the character code equals the UTF-8 byte. -/
def bytes (s : String) : GoStr := s.data.map Char.toNat

/-- A regular file: its content bytes and its permission bits. -/
structure File where
  content : GoStr
  mode : Nat
deriving DecidableEq

/-- State of one path in the modelled filesystem.  `inaccessible` stands for a
path on which `stat`/`open` fail with an error other than not-found. -/
inductive FileState where
  | present (f : File)
  | absent
  | inaccessible (errMsg : GoStr)
deriving DecidableEq

/-- The filesystem: a map from paths to file states. -/
def FS := GoStr → FileState

/-- Update one path of the filesystem. -/
def updateFS (fs : FS) (p : GoStr) (st : FileState) : FS :=
  fun q => if q = p then st else fs q

/-- A Go error value.  `notExist` records whether `os.IsNotExist` holds of it;
wrapping with `fmt.Errorf` clears the flag because `os.IsNotExist` does not
unwrap. -/
structure GoError where
  msg : GoStr
  notExist : Bool
deriving DecidableEq

/-- Quote a byte string, as the `%q` verb of `fmt` does (escaping of exotic
bytes inside the quotes is not modelled; only the surrounding quotes are). -/
def quoted (s : GoStr) : GoStr := 34 :: s ++ [34]

/-- Error of `os.Stat`/`os.Open` on a missing path. -/
def errNotExist (p : GoStr) : GoError :=
  { msg := bytes "open " ++ quoted p ++ bytes ": no such file or directory"
    notExist := true }

/-- Wrap an error with a message, as `fmt.Errorf("...: %w", err)` does.  The
wrapped error no longer satisfies `os.IsNotExist`. -/
def wrapErr (pre : GoStr) (e : GoError) : GoError :=
  { msg := pre ++ bytes ": " ++ e.msg, notExist := false }

/-- Plain (non-not-exist) error with a message. -/
def errOther (m : GoStr) : GoError := { msg := m, notExist := false }

/-- An HTTP request as built by `makeRequest`. -/
structure HttpRequest where
  method : GoStr
  url : GoStr
  header : List (GoStr × GoStr)
deriving DecidableEq

/-- One observable I/O action of the engine. -/
inductive Effect where
  | statF (p : GoStr)
  | openRead (p : GoStr)
  | openWrite (p : GoStr) (mode : Nat)
  | copyBytes (p : GoStr)
  | chmod (p : GoStr) (mode : Nat)
  | removeF (p : GoStr)
  | httpDo (req : HttpRequest)
deriving DecidableEq

/-- Does an effect write destination bytes (opening for write or streaming a
byte copy)?  Used to state "performs no byte copy". -/
def Effect.isWrite : Effect → Bool
  | .openWrite _ _ => true
  | .copyBytes _ => true
  | _ => false

/-- Is an effect a network round trip? -/
def Effect.isNetwork : Effect → Bool
  | .httpDo _ => true
  | _ => false

/-- Model of `os.Stat` (also used for `os.Open` classification). -/
def osStat (fs : FS) (p : GoStr) : Except GoError File :=
  match fs p with
  | .present f => .ok f
  | .absent => .error (errNotExist p)
  | .inaccessible m => .error (errOther m)

/-- Model of `os.OpenFile(p, O_CREATE|O_TRUNC|O_WRONLY, mode)`: truncates an
existing file keeping its permission bits, creates an absent file with the
given mode. -/
def osOpenFileCreateTrunc (fs : FS) (p : GoStr) (mode : Nat) :
    Except GoError FS :=
  match fs p with
  | .present f => .ok (updateFS fs p (.present { content := [], mode := f.mode }))
  | .absent => .ok (updateFS fs p (.present { content := [], mode := mode }))
  | .inaccessible m => .error (errOther m)

/-- Replace the content of a (present) path, leaving its mode unchanged. -/
def setContent (fs : FS) (p : GoStr) (c : GoStr) : FS :=
  fun q =>
    if q = p then
      match fs p with
      | .present f => .present { f with content := c }
      | st => st
    else fs q

/-- Model of `os.Remove` with the error discarded (`_ = os.Remove(...)`). -/
def osRemoveQuiet (fs : FS) (p : GoStr) : FS :=
  updateFS fs p .absent

/-- Model of `os.Remove` with the error observed. -/
def osRemove (fs : FS) (p : GoStr) : Except GoError FS :=
  match fs p with
  | .present _ => .ok (updateFS fs p .absent)
  | .absent => .error (errNotExist p)
  | .inaccessible m => .error (errOther m)

/-- Model of `os.Chmod`. -/
def osChmod (fs : FS) (p : GoStr) (mode : Nat) : Except GoError FS :=
  match fs p with
  | .present f => .ok (updateFS fs p (.present { f with mode := mode }))
  | .absent => .error (errNotExist p)
  | .inaccessible m => .error (errOther m)

/-! ## SHA-256 (crypto/sha256), over byte lists with 32-bit words as `Nat` -/

/-- Addition modulo `2^32`. -/
def add32 (a b : Nat) : Nat := (a + b) % 4294967296

/-- Right rotation of a 32-bit word. -/
def rotr32 (n x : Nat) : Nat := ((x >>> n) ||| (x <<< (32 - n))) % 4294967296

/-- SHA-256 round constants (decimal values of the FIPS 180-4 words). -/
def shaK : List Nat :=
  [1116352408, 1899447441, 3049323471, 3921009573, 961987163,
   1508970993, 2453635748, 2870763221, 3624381080, 310598401,
   607225278, 1426881987, 1925078388, 2162078206, 2614888103,
   3248222580, 3835390401, 4022224774, 264347078, 604807628,
   770255983, 1249150122, 1555081692, 1996064986, 2554220882,
   2821834349, 2952996808, 3210313671, 3336571891, 3584528711,
   113926993, 338241895, 666307205, 773529912, 1294757372,
   1396182291, 1695183700, 1986661051, 2177026350, 2456956037,
   2730485921, 2820302411, 3259730800, 3345764771, 3516065817,
   3600352804, 4094571909, 275423344, 430227734, 506948616,
   659060556, 883997877, 958139571, 1322822218, 1537002063,
   1747873779, 1955562222, 2024104815, 2227730452, 2361852424,
   2428436474, 2756734187, 3204031479, 3329325298]

/-- SHA-256 initial hash state (decimal values of the FIPS 180-4 words). -/
def shaH0 : List Nat :=
  [1779033703, 3144134277, 1013904242, 2773480762,
   1359893119, 2600822924, 528734635, 1541459225]

/-- Big sigma-0. -/
def bigSigma0 (x : Nat) : Nat := rotr32 2 x ^^^ rotr32 13 x ^^^ rotr32 22 x

/-- Big sigma-1. -/
def bigSigma1 (x : Nat) : Nat := rotr32 6 x ^^^ rotr32 11 x ^^^ rotr32 25 x

/-- Small sigma-0. -/
def smallSigma0 (x : Nat) : Nat := rotr32 7 x ^^^ rotr32 18 x ^^^ (x >>> 3)

/-- Small sigma-1. -/
def smallSigma1 (x : Nat) : Nat := rotr32 17 x ^^^ rotr32 19 x ^^^ (x >>> 10)

/-- Choice function. -/
def shaCh (x y z : Nat) : Nat := (x &&& y) ^^^ ((x ^^^ 4294967295) &&& z)

/-- Majority function. -/
def shaMaj (x y z : Nat) : Nat := (x &&& y) ^^^ (x &&& z) ^^^ (y &&& z)

/-- Big-endian 64-bit length field of the padding. -/
def lenBytes64 (bits : Nat) : GoStr :=
  [bits >>> 56 % 256, bits >>> 48 % 256, bits >>> 40 % 256, bits >>> 32 % 256,
   bits >>> 24 % 256, bits >>> 16 % 256, bits >>> 8 % 256, bits % 256]

/-- SHA-256 message padding. -/
def sha256pad (msg : GoStr) : GoStr :=
  let len := msg.length
  let zeros := (119 - len % 64) % 64
  msg ++ 128 :: List.replicate zeros 0 ++ lenBytes64 (len * 8)

/-- Big-endian 32-bit word from four bytes. -/
def be32 (a b c d : Nat) : Nat := ((a * 256 + b) * 256 + c) * 256 + d

/-- Group a byte list into big-endian 32-bit words. -/
def toWords : GoStr → List Nat
  | a :: b :: c :: d :: rest => be32 a b c d :: toWords rest
  | _ => []

/-- Group a word list into blocks of 16 words. -/
def chunk16 : List Nat → List Nat → List (List Nat)
  | [], _ => []
  | w :: rest, acc =>
    if acc.length = 15 then (acc ++ [w]) :: chunk16 rest []
    else chunk16 rest (acc ++ [w])

/-- Extend a 16-word block to the 64-word message schedule. -/
def extendSchedule (block : List Nat) : List Nat :=
  (List.range 48).foldl
    (fun w _ =>
      let n := w.length
      w ++ [add32 (add32 (smallSigma1 (w.getD (n - 2) 0)) (w.getD (n - 7) 0))
                  (add32 (smallSigma0 (w.getD (n - 15) 0)) (w.getD (n - 16) 0))])
    block

/-- One block of the SHA-256 compression function. -/
def shaCompress (h : List Nat) (block : List Nat) : List Nat :=
  let w := extendSchedule block
  let st := (shaK.zip w).foldl
    (fun st kw =>
      match st with
      | [a, b, c, d, e, f, g, hh] =>
        let t1 := add32 hh (add32 (bigSigma1 e) (add32 (shaCh e f g) (add32 kw.1 kw.2)))
        let t2 := add32 (bigSigma0 a) (shaMaj a b c)
        [add32 t1 t2, a, b, c, add32 d t1, e, f, g]
      | s => s) h
  (h.zip st).map (fun p => add32 p.1 p.2)

/-- SHA-256 digest of a byte list, as 32 bytes. -/
def sha256bytes (msg : GoStr) : GoStr :=
  let blocks := chunk16 (toWords (sha256pad msg)) []
  let hFinal := blocks.foldl shaCompress shaH0
  hFinal.foldr
    (fun w acc => (w >>> 24) % 256 :: (w >>> 16) % 256 :: (w >>> 8) % 256 :: w % 256 :: acc) []

/-- Lowercase hex digit byte. -/
def lowerHexDigit (n : Nat) : Nat := (bytes "0123456789abcdef").getD n 0

/-- Lowercase hex encoding of a byte list (`hex.EncodeToString`). -/
def hexEncode (s : GoStr) : GoStr :=
  s.foldr (fun b acc => lowerHexDigit (b / 16) :: lowerHexDigit (b % 16) :: acc) []

/-- Hex of the SHA-256 digest: the content fingerprint of the engines. -/
def sha256hex (msg : GoStr) : GoStr := hexEncode (sha256bytes msg)

example : sha256hex (bytes "foo") =
    bytes "2c26b46b68ffc68ff99b453c1d30413413422d706483bfa0f98a5e886266e7ae" := by
  decide

/-! ## Identity codec: `path/filepath` (Unix) and `net/url`, over byte lists -/

/-- Is a byte an ASCII letter? -/
def isAlphaB (b : Nat) : Bool := (65 ≤ b && b ≤ 90) || (97 ≤ b && b ≤ 122)

/-- Is a byte an ASCII digit? -/
def isDigitB (b : Nat) : Bool := 48 ≤ b && b ≤ 57

/-- Lowercase one ASCII byte. -/
def toLowerB (b : Nat) : Nat := if 65 ≤ b && b ≤ 90 then b + 32 else b

/-- Uppercase one ASCII byte. -/
def toUpperB (b : Nat) : Nat := if 97 ≤ b && b ≤ 122 then b - 32 else b

/-- Lowercase an ASCII byte string (`strings.ToLower`, ASCII fragment). -/
def goToLower (s : GoStr) : GoStr := s.map toLowerB

/-- Is a path absolute (`filepath.IsAbs` on Unix: starts with a slash)? -/
def isAbs (p : GoStr) : Bool := p.head? = some 47

/-- Split a path on slash bytes, like `strings.Split(p, "/")`. -/
def splitOnSlash : GoStr → List GoStr
  | [] => [[]]
  | b :: rest =>
    let r := splitOnSlash rest
    if b = 47 then [] :: r
    else
      match r with
      | [] => [[b]]
      | h :: t => (b :: h) :: t

/-- Resolve `..` components against a component stack, as `filepath.Clean`
does: `..` pops a previous non-`..` component, is dropped at the root of a
rooted path, and accumulates otherwise. -/
def resolveComps (rooted : Bool) (comps : List GoStr) : List GoStr :=
  comps.foldl
    (fun stack c =>
      if c = bytes ".." then
        if stack ≠ [] ∧ stack.getLast? ≠ some (bytes "..") then stack.dropLast
        else if rooted then stack
        else stack ++ [c]
      else stack ++ [c]) []

/-- Join components with slashes. -/
def joinSlash (comps : List GoStr) : GoStr := (comps.intersperse [47]).flatten

/-- Model of `filepath.Clean` on Unix: drop empty and `.` components, resolve
`..`, and normalize the result (empty cleans to `.`). -/
def goClean (p : GoStr) : GoStr :=
  if p = [] then bytes "."
  else
    let rooted := isAbs p
    let comps := (splitOnSlash p).filter (fun c => !(c == []) && !(c == bytes "."))
    let out := resolveComps rooted comps
    if rooted then 47 :: joinSlash out
    else if out = [] then bytes "." else joinSlash out

/-- Model of `filepath.ToSlash` on Unix: the separator already is a slash, so
replacing separators by slashes is the identity byte map. -/
def toSlash (p : GoStr) : GoStr := p.map (fun b => if b = 47 then 47 else b)

/-- Model of `filepath.FromSlash` on Unix: identity, symmetrically. -/
def fromSlash (p : GoStr) : GoStr := p.map (fun b => if b = 47 then 47 else b)

/-- Model of `filepath.Abs` in a process whose working directory is `cwd`: an
absolute path is cleaned, a relative path is joined onto `cwd` and cleaned
(`filepath.Join(wd, path)`).  The only failure of the real `Abs` is a failing
`os.Getwd`, an environmental condition outside this model. -/
def goAbs (cwd p : GoStr) : GoStr :=
  if isAbs p then goClean p else goClean (cwd ++ 47 :: p)

/-- Should a byte be percent-escaped in a URL path (`net/url.shouldEscape`
with `encodePath` mode)?  Unreserved bytes and most reserved bytes pass
through; among the reserved set only `?` is escaped in a path. -/
def shouldEscapePath (b : Nat) : Bool :=
  if isAlphaB b || isDigitB b then false
  else if b = 45 || b = 95 || b = 46 || b = 126 then false
  else if b = 36 || b = 38 || b = 43 || b = 44 || b = 47 || b = 58 || b = 59 ||
          b = 61 || b = 63 || b = 64 then b == 63
  else true

/-- Uppercase hex digit byte, as `net/url` uses for escaping. -/
def upperHexDigit (n : Nat) : Nat := (bytes "0123456789ABCDEF").getD n 0

/-- Percent-escape a URL path (`net/url.escape` with `encodePath`). -/
def escapePath : GoStr → GoStr
  | [] => []
  | b :: rest =>
    (if shouldEscapePath b then [37, upperHexDigit (b / 16), upperHexDigit (b % 16)]
     else [b]) ++ escapePath rest

/-- Value of one hex digit byte, if it is one. -/
def unhexDigit (b : Nat) : Option Nat :=
  if 48 ≤ b && b ≤ 57 then some (b - 48)
  else if 97 ≤ b && b ≤ 102 then some (b - 87)
  else if 65 ≤ b && b ≤ 70 then some (b - 55)
  else none

/-- Percent-unescape a URL path (`net/url.unescape` with `encodePath`): every
`%` must be followed by two hex digits, other bytes pass through. -/
def goUnescapePath : GoStr → Option GoStr
  | [] => some []
  | b :: rest =>
    if b = 37 then
      match rest with
      | h1 :: h2 :: rest2 => do
        let d1 ← unhexDigit h1
        let d2 ← unhexDigit h2
        let tail ← goUnescapePath rest2
        pure ((d1 * 16 + d2) :: tail)
      | _ => none
    else (goUnescapePath rest).map (b :: ·)

/-- The parts of a parsed URL that the identity codec uses. -/
structure GoURL where
  scheme : GoStr
  host : GoStr
  path : GoStr
deriving DecidableEq

/-- Result of scheme extraction, as in `net/url.getScheme`. -/
inductive SchemeRes where
  | found (scheme rest : GoStr)
  | noScheme
  | schemeErr

/-- Model of `net/url.getScheme`: scan an alpha-led run of scheme bytes up to a
colon; a leading colon is an error; any other shape means no scheme. -/
def getSchemeAux : GoStr → GoStr → SchemeRes
  | [], _ => .noScheme
  | c :: rest, acc =>
    if isAlphaB c then getSchemeAux rest (acc ++ [c])
    else if isDigitB c || c = 43 || c = 45 || c = 46 then
      if acc = [] then .noScheme else getSchemeAux rest (acc ++ [c])
    else if c = 58 then
      if acc = [] then .schemeErr else .found (goToLower acc) rest
    else .noScheme

/-- Cut a byte string at the first occurrence of a byte: the part before it and
the part after it. -/
def cutAt (needle : Nat) (s : GoStr) : GoStr × GoStr :=
  (s.takeWhile (fun b => !(b == needle)), (s.dropWhile (fun b => !(b == needle))).drop 1)

/-- Model of `net/url.Parse` restricted to the components the identity codec
reads (scheme, host, path).  The fragment and query are cut off and discarded;
control bytes are rejected; an opaque part (scheme present, rest not starting
with a slash) yields an empty path; the escaped path is unescaped, rejecting
bad escapes.  Host bytes are kept raw (host validation and unescaping are not
modelled; the codec never reads the host). -/
def urlParse (raw : GoStr) : Option GoURL :=
  let s := (cutAt 35 raw).1
  if s.any (fun b => b < 32 || b == 127) then none
  else
    match getSchemeAux s [] with
    | .schemeErr => none
    | res =>
      let schemeRest : GoStr × GoStr :=
        match res with
        | .found sc r => (sc, r)
        | _ => ([], s)
      let scheme := schemeRest.1
      let rest0 := schemeRest.2
      let rest1 := (cutAt 63 rest0).1
      if scheme = [] ∧ (rest1.takeWhile (fun b => !(b == 47))).contains 58 then none
      else if rest1.take 1 ≠ [47] then
        if scheme ≠ [] then some ⟨scheme, [], []⟩
        else match goUnescapePath rest1 with
          | none => none
          | some p => some ⟨scheme, [], p⟩
      else if (scheme ≠ [] ∨ rest1.take 3 ≠ [47, 47, 47]) ∧ rest1.take 2 = [47, 47] then
        let afterSlashes := rest1.drop 2
        let authority := afterSlashes.takeWhile (fun b => !(b == 47))
        let rest2 := afterSlashes.dropWhile (fun b => !(b == 47))
        match goUnescapePath rest2 with
        | none => none
        | some p => some ⟨scheme, authority, p⟩
      else
        match goUnescapePath rest1 with
        | none => none
        | some p => some ⟨scheme, [], p⟩

/-- Model of `url.URL.String` for the URL values the codec builds (scheme
`file`, empty host, rooted path): scheme, colon, double slash, escaped path. -/
def urlString (u : GoURL) : GoStr :=
  u.scheme ++ 58 :: 47 :: 47 :: u.host ++ escapePath u.path

/-- Model of `fileToID`: resolve the path to absolute slash-normalized form and
serialize it as a `file://` URI. -/
def fileToID (cwd file : GoStr) : GoStr :=
  urlString { scheme := bytes "file", host := [], path := toSlash (goAbs cwd file) }

/-- Model of `idToFile`: parse the URI, reject a non-`file` scheme with a
format error, and return the absolute OS-native path. -/
def idToFile (cwd id : GoStr) : Except GoError GoStr :=
  match urlParse id with
  | none => .error (errOther (bytes "invalid id format " ++ quoted id))
  | some u =>
    if u.scheme ≠ bytes "file" then
      .error (errOther (bytes "invalid id scheme " ++ quoted u.scheme ++
        bytes ", should be file"))
    else .ok (goAbs cwd (fromSlash u.path))

example : goClean (bytes "/a/./b") = bytes "/a/b" := by decide
example : goClean (bytes "/a/../b/") = bytes "/b" := by decide
example : goClean (bytes "//a/..") = bytes "/" := by decide
example : goClean (bytes "a/../../b") = bytes "../b" := by decide
example : fileToID [] (bytes "/tmp/x y") = bytes "file:///tmp/x%20y" := by decide
example : idToFile [] (bytes "file:///tmp/x%20y") = .ok (bytes "/tmp/x y") := by decide
example : idToFile [] (bytes "http://h/a") =
    .error (errOther (bytes "invalid id scheme " ++ quoted (bytes "http") ++
      bytes ", should be file")) := by decide
example : idToFile [] (bytes "/a/b") =
    .error (errOther (bytes "invalid id scheme " ++ quoted [] ++
      bytes ", should be file")) := by decide
example : idToFile [] (fileToID [] (bytes "/a/./b")) = .ok (bytes "/a/b") := by decide

/-! ## Diagnostics (terraform-plugin-sdk `diag`) -/

/-- Diagnostic severity. -/
inductive Severity where
  | diagError
  | diagWarning
deriving DecidableEq

/-- A structured diagnostic: severity, summary, optional detail. -/
structure Diagnostic where
  severity : Severity
  summary : GoStr
  detail : GoStr
deriving DecidableEq

/-- A list of diagnostics. -/
abbrev Diagnostics := List Diagnostic

/-- Model of `diag.FromErr`. -/
def fromErr (e : GoError) : Diagnostics := [⟨.diagError, e.msg, []⟩]

/-- Model of `diag.Diagnostics.HasError`. -/
def hasError (ds : Diagnostics) : Bool := ds.any (fun d => d.severity == .diagError)

/-! ## Shared substrate: octal mode parsing and content fingerprint -/

/-- Digit loop of `strconv.ParseUint(s, 8, 32)`: a non-octal byte is a syntax
error, exceeding 32 bits is a range error. -/
def parseOctalAux : GoStr → Nat → Except GoStr Nat
  | [], acc => .ok acc
  | c :: rest, acc =>
    if 48 ≤ c ∧ c ≤ 55 then
      let acc2 := acc * 8 + (c - 48)
      if acc2 < 4294967296 then parseOctalAux rest acc2
      else .error (bytes "value out of range")
    else .error (bytes "invalid syntax")

/-- Model of `strconv.ParseUint(s, 8, 32)`: the empty string is a syntax
error, otherwise the octal digit loop runs. -/
def parseOctal32 (s : GoStr) : Except GoStr Nat :=
  if s = [] then .error (bytes "invalid syntax") else parseOctalAux s 0

/-- Model of `hashFile`: open the file and stream its content through SHA-256.
Streaming from an opened in-memory content list cannot fail, so the read-error
wrapping branch of the source is unreachable in the model; the open error is
returned raw (it satisfies `os.IsNotExist` for a missing file). -/
def hashFile (fs : FS) (filename : GoStr) : Except GoError GoStr × List Effect :=
  match osStat fs filename with
  | .error e => (.error e, [.openRead filename])
  | .ok f => (.ok (sha256hex f.content), [.openRead filename])

/-! ## Local copy engine (`resource_file`) -/

/-- Field set of the local-file resource; an empty byte string models an unset
optional field, matching `ResourceData.GetOk` which reports the zero value of
a string field as not-ok. -/
structure FileResourceData where
  id : GoStr
  source : GoStr
  destination : GoStr
  file_mode : GoStr
  content_sha256 : GoStr
deriving DecidableEq

/-- Outcome oracle for a streaming `io.Copy` into a destination file: success,
or failure after some bytes were written. -/
inductive CopyOutcome where
  | success
  | failAfter (written : GoStr) (failMsg : GoStr)
deriving DecidableEq

/-- Model of `copyFile`: open the source, resolve a zero mode from the source
stat, create/truncate the destination, stream; on a streaming failure the
partially written destination is closed, removed, and a wrapped error is
returned. -/
def copyFile (fs : FS) (source destination : GoStr) (mode0 : Nat)
    (oc : CopyOutcome) : FS × List Effect × Option GoError :=
  match osStat fs source with
  | .error e =>
    (fs, [.openRead source],
     some (wrapErr (bytes "could not open source file " ++ quoted source) e))
  | .ok srcF =>
    let statEff : List Effect := if mode0 = 0 then [.statF source] else []
    let mode := if mode0 = 0 then srcF.mode else mode0
    match osOpenFileCreateTrunc fs destination mode with
    | .error e =>
      (fs, .openRead source :: statEff ++ [.openWrite destination mode],
       some (wrapErr (bytes "could not create destination file " ++ quoted destination) e))
    | .ok fs1 =>
      match oc with
      | .success =>
        (setContent fs1 destination srcF.content,
         .openRead source :: statEff ++ [.openWrite destination mode, .copyBytes destination],
         none)
      | .failAfter written m =>
        (osRemoveQuiet (setContent fs1 destination written) destination,
         .openRead source :: statEff ++
           [.openWrite destination mode, .copyBytes destination, .removeF destination],
         some (errOther (bytes "error copying " ++ quoted source ++ bytes " => " ++
           quoted destination ++ bytes ": " ++ m)))

/-- Mode comparison and chmod tail of `ensureFileMode`. -/
def ensureFileModeChmod (fs : FS) (dest : GoStr) (destF : File) (mode : Nat)
    (eff : List Effect) : FS × List Effect × Diagnostics :=
  if mode = destF.mode then (fs, eff, [])
  else
    match osChmod fs dest mode with
    | .error e =>
      (fs, eff ++ [.chmod dest mode],
       fromErr (wrapErr (bytes "failed to chmod " ++ quoted dest) e))
    | .ok fs2 => (fs2, eff ++ [.chmod dest mode], [])

/-- Model of `ensureFileMode`: stat the destination, determine the desired mode
(explicit `file_mode` if set, else the live source mode), and chmod the
destination if it differs.  The source-stat failure message of the Go code
interpolates the destination path (a slip in the original format arguments),
mirrored here. -/
def ensureFileMode (fs : FS) (d : FileResourceData) :
    FS × List Effect × Diagnostics :=
  let source := d.source
  let dest := d.destination
  match osStat fs dest with
  | .error e =>
    (fs, [.statF dest],
     fromErr (wrapErr (bytes "could not stat destination " ++ quoted dest) e))
  | .ok destF =>
    if d.file_mode ≠ [] then
      match parseOctal32 d.file_mode with
      | .error em =>
        (fs, [.statF dest],
         [⟨.diagError, bytes "file_mode is not a valid octal number", em⟩])
      | .ok m => ensureFileModeChmod fs dest destF m [.statF dest]
    else
      match osStat fs source with
      | .error e =>
        (fs, [.statF dest, .statF source],
         fromErr (wrapErr (bytes "could not stat source " ++ quoted dest) e))
      | .ok srcF => ensureFileModeChmod fs dest destF srcF.mode [.statF dest, .statF source]

/-- Aggregated result of a local-copy-engine operation. -/
structure FileResult where
  fs : FS
  data : FileResourceData
  effects : List Effect
  diags : Diagnostics

/-- Copy tail of `ensureCopyFile`: run `copyFile` and on success record the
source fingerprint as the new `content_sha256`. -/
def ensureCopyFinish (fs : FS) (d : FileResourceData) (oc : CopyOutcome)
    (mode : Nat) (eff : List Effect) (sourceHash : GoStr) : FileResult :=
  match copyFile fs d.source d.destination mode oc with
  | (fs2, e3, some e) => ⟨fs2, d, eff ++ e3, fromErr e⟩
  | (fs2, e3, none) => ⟨fs2, { d with content_sha256 := sourceHash }, eff ++ e3, []⟩

/-- Model of `ensureCopyFile`: fingerprint source (fatal if it fails) and
destination; if the destination fingerprint call succeeded and matches, only
reconcile permissions; otherwise resolve the explicit mode (zero if unset) and
copy. -/
def ensureCopyFile (fs : FS) (d : FileResourceData) (oc : CopyOutcome) : FileResult :=
  match hashFile fs d.source with
  | (.error e, e1) => ⟨fs, d, e1, fromErr e⟩
  | (.ok sourceHash, e1) =>
    let destRes := hashFile fs d.destination
    if destRes.1 = .ok sourceHash then
      let r := ensureFileMode fs d
      ⟨r.1, d, e1 ++ destRes.2 ++ r.2.1, r.2.2⟩
    else
      if d.file_mode ≠ [] then
        match parseOctal32 d.file_mode with
        | .error em =>
          ⟨fs, d, e1 ++ destRes.2,
           [⟨.diagError, bytes "file_mode is not a valid octal number", em⟩]⟩
        | .ok m => ensureCopyFinish fs d oc m (e1 ++ destRes.2) sourceHash
      else ensureCopyFinish fs d oc 0 (e1 ++ destRes.2) sourceHash

/-- Model of `resourceFileCreate`: ensure-copy, then set the identity from the
destination path. -/
def resourceFileCreate (cwd : GoStr) (fs : FS) (d : FileResourceData)
    (oc : CopyOutcome) : FileResult :=
  let r := ensureCopyFile fs d oc
  if hasError r.diags then r
  else { r with data := { r.data with id := fileToID cwd r.data.destination } }

/-- Model of `resourceFileRead`: fingerprint the backing file at the decoded
identity; a not-found clears the identity, any other failure is fatal,
otherwise the fingerprint attribute is refreshed. -/
def resourceFileRead (cwd : GoStr) (fs : FS) (d : FileResourceData) : FileResult :=
  match idToFile cwd d.id with
  | .error e => ⟨fs, d, [], fromErr e⟩
  | .ok file =>
    match hashFile fs file with
    | (.error e, eff) =>
      if e.notExist then ⟨fs, { d with id := [] }, eff, []⟩
      else ⟨fs, d, eff, fromErr e⟩
    | (.ok h, eff) => ⟨fs, { d with content_sha256 := h }, eff, []⟩

/-- Model of `resourceFileUpdate`: ensure-copy then re-read. -/
def resourceFileUpdate (cwd : GoStr) (fs : FS) (d : FileResourceData)
    (oc : CopyOutcome) : FileResult :=
  let r := ensureCopyFile fs d oc
  if hasError r.diags then r
  else
    let r2 := resourceFileRead cwd r.fs r.data
    { r2 with effects := r.effects ++ r2.effects }

/-- Model of `resourceFileDelete`: decode the identity, stat the file (already
absent is success), and remove it. -/
def resourceFileDelete (cwd : GoStr) (fs : FS) (d : FileResourceData) :
    FS × List Effect × Diagnostics :=
  let id := d.id
  match idToFile cwd id with
  | .error e => (fs, [], fromErr e)
  | .ok name =>
    match osStat fs name with
    | .error e =>
      if e.notExist then (fs, [.statF name], [])
      else (fs, [.statF name],
        fromErr (wrapErr (bytes "could not stat file " ++ quoted name) e))
    | .ok _ =>
      match osRemove fs name with
      | .error e =>
        (fs, [.statF name, .removeF name],
         fromErr (wrapErr (bytes "could not remove file " ++ quoted name) e))
      | .ok fs2 => (fs2, [.statF name, .removeF name], [])

/-! ## Header canonicalization (`net/textproto`) -/

/-- Is a byte valid in a MIME header field name (`validHeaderFieldByte`)? -/
def validHeaderFieldByte (b : Nat) : Bool :=
  isAlphaB b || isDigitB b || b = 33 || b = 35 || b = 36 || b = 37 || b = 38 ||
  b = 39 || b = 42 || b = 43 || b = 45 || b = 46 || b = 94 || b = 95 || b = 96 ||
  b = 124 || b = 126

/-- Case folding loop of `CanonicalMIMEHeaderKey`: uppercase at the start and
after each hyphen, lowercase elsewhere. -/
def canonicalKeyAux : GoStr → Bool → GoStr
  | [], _ => []
  | c :: rest, upper =>
    (if upper then toUpperB c else toLowerB c) :: canonicalKeyAux rest (c == 45)

/-- Model of `textproto.CanonicalMIMEHeaderKey`: keys with invalid bytes are
returned unmodified, otherwise canonical word casing is applied. -/
def canonicalKey (s : GoStr) : GoStr :=
  if s.all validHeaderFieldByte then canonicalKeyAux s true else s

/-- Model of `http.Header.Set`: replace (or append) the single value stored
under the canonical key. -/
def headerSet (h : List (GoStr × GoStr)) (k v : GoStr) : List (GoStr × GoStr) :=
  let ck := canonicalKey k
  if h.any (fun kv => kv.1 == ck) then
    h.map (fun kv => if kv.1 == ck then (ck, v) else kv)
  else h ++ [(ck, v)]

/-- Model of `http.Header.Get`: the value under the canonical key, or empty. -/
def headerGet (h : List (GoStr × GoStr)) (k : GoStr) : GoStr :=
  match h.find? (fun kv => kv.1 == canonicalKey k) with
  | some kv => kv.2
  | none => []

/-! ## Remote fetch engine (`resource_url`) -/

/-- Field set of the URL resource; empty byte strings model unset optional and
not-yet-computed fields, matching `GetOk`. -/
structure URLResourceData where
  id : GoStr
  url : GoStr
  headers : List (GoStr × GoStr)
  filename : GoStr
  file_mode : GoStr
  etag : GoStr
  last_modified : GoStr
  content_sha256 : GoStr
deriving DecidableEq

/-- Model of `makeRequest`: custom headers are applied first via `Header.Set`
(the embedding fixes the iteration order of the Go map to the list order),
then exactly one conditional header is set: `If-None-Match` when a cached etag
is known, else `If-Modified-Since` when a cached timestamp is known.  URL
parse failures of `http.NewRequest` are not modelled. -/
def makeRequest (method : GoStr) (d : URLResourceData) : HttpRequest :=
  let etag := d.etag
  let modified := d.last_modified
  let req : HttpRequest := { method := method, url := d.url, header := [] }
  let req := d.headers.foldl
    (fun r kv => { r with header := headerSet r.header kv.1 kv.2 }) req
  if etag ≠ [] then
    { req with header := headerSet req.header (bytes "If-None-Match") etag }
  else if modified ≠ [] then
    { req with header := headerSet req.header (bytes "If-Modified-Since") modified }
  else req

/-- Model of `getFileMode`: parse an explicit `file_mode` (invalid octal is an
error before any I/O), default to `0664` when unset. -/
def getFileMode (d : URLResourceData) : Except GoError Nat :=
  if d.file_mode ≠ [] then
    match parseOctal32 d.file_mode with
    | .error _ => .error (errOther (bytes "file_mode is not a valid octal number"))
    | .ok m => .ok m
  else .ok 0o664

/-! ## Media type detection (`mime.ParseMediaType` fragment) -/

/-- ASCII whitespace, as trimmed by `strings.TrimSpace`. -/
def isSpaceB (b : Nat) : Bool :=
  b = 32 || b = 9 || b = 10 || b = 11 || b = 12 || b = 13

/-- Is a byte a MIME token char (printable ASCII that is not a tspecial)? -/
def isTokenChar (b : Nat) : Bool :=
  32 < b && b < 127 &&
  !(b = 40 || b = 41 || b = 60 || b = 62 || b = 64 || b = 44 || b = 59 ||
    b = 58 || b = 92 || b = 34 || b = 47 || b = 91 || b = 93 || b = 63 || b = 61)

/-- Trim surrounding ASCII whitespace. -/
def mimeTrim (s : GoStr) : GoStr :=
  ((s.dropWhile isSpaceB).reverse.dropWhile isSpaceB).reverse

/-- Split a byte string on a separator byte. -/
def splitOnByte (needle : Nat) : GoStr → List GoStr
  | [] => [[]]
  | b :: rest =>
    let r := splitOnByte needle rest
    if b = needle then [] :: r
    else
      match r with
      | [] => [[b]]
      | h :: t => (b :: h) :: t

/-- Model of `checkMediaTypeDisposition`: a token, optionally followed by a
slash and a second token, with nothing left over. -/
def checkMediaType (s : GoStr) : Bool :=
  let t1 := s.takeWhile isTokenChar
  let rest := s.drop t1.length
  if t1 = [] then false
  else if rest = [] then true
  else if rest.take 1 ≠ [47] then false
  else
    let t2 := (rest.drop 1).takeWhile isTokenChar
    !(t2 == []) && (rest.drop 1).drop t2.length == []

/-- Simplified validity of one `;`-separated parameter chunk: empty, or
`attribute=value` with a token or double-quoted value.  The full quoted-string
escape grammar of `mime` is not modelled; it does not affect the media types
the engine classifies. -/
def validParamChunk (c0 : GoStr) : Bool :=
  let c := mimeTrim c0
  if c = [] then true
  else
    let attr := c.takeWhile isTokenChar
    let rest := c.drop attr.length
    !(attr == []) && rest.take 1 == [61] &&
      (let v := rest.drop 1
       (!(v == []) && v.all isTokenChar) ||
       (v.length ≥ 2 && v.take 1 == [34] && v.getLast? == some 34 &&
        ((v.drop 1).take (v.length - 2)).all (fun b => !(b == 34) && !(b == 92))))

/-- Model of `mime.ParseMediaType` as used here: lowercase and trim the part
before the first `;`, validate it as a media type, and fail on malformed
parameters; the caller maps any failure to the empty string. -/
def parseMediaType (v : GoStr) : Option GoStr :=
  let parts := splitOnByte 59 v
  let base := mimeTrim (goToLower (parts.headD []))
  if !checkMediaType base then none
  else if (parts.drop 1).all validParamChunk then some base
  else none

/-- Last index of a byte in a byte string. -/
def lastIndexOfByte (b : Nat) (s : GoStr) : Option Nat :=
  (s.reverse.indexOf? b).map (fun i => s.length - 1 - i)

/-- Model of `getNormalizedMediaType`: strip parameters, reject badly formed
types, and collapse a `+subtype` suffix onto the main type. -/
def getNormalizedMediaType (contentType : GoStr) : GoStr :=
  match parseMediaType contentType with
  | none => []
  | some mt =>
    let n := mt.length
    match mt.indexOf? 47 with
    | none => []
    | some slash =>
      if slash = n - 1 then []
      else
        match lastIndexOfByte 43 mt with
        | some plus =>
          if plus = n - 1 then []
          else mt.take (slash + 1) ++ mt.drop (plus + 1)
        | none => mt

/-- Model of `isTextual`: `text/*` or one of the structured-text application
types. -/
def isTextual (contentType : GoStr) : Bool :=
  let mt := getNormalizedMediaType contentType
  if mt = [] then false
  else if (bytes "text/").isPrefixOf mt then true
  else
    mt == bytes "application/json" || mt == bytes "application/xml" ||
    mt == bytes "application/yaml" || mt == bytes "application/x-yaml"

/-! ## Response handling -/

/-- An HTTP response as the engine reads it. -/
structure HttpResponse where
  statusCode : Nat
  status : GoStr
  headers : List (GoStr × GoStr)
  body : GoStr
deriving DecidableEq

/-- Outcome oracle of `http.Client.Do`. -/
inductive HttpResult where
  | transportError (m : GoStr)
  | response (r : HttpResponse)
deriving DecidableEq

/-- Model of `diagResponseError`: the response body is attached as detail only
when the content type is textual.  Reading an in-memory body cannot fail, so
the warning branch of the source is unreachable in the model; the formatted
summary is passed in already rendered. -/
def diagResponseError (resp : HttpResponse) (summary : GoStr) : Diagnostics :=
  let detail :=
    if isTextual (headerGet resp.headers (bytes "Content-Type")) then resp.body
    else []
  [⟨.diagError, summary, detail⟩]

/-- Model of `writeResponseBody`: a zero mode falls back to `0644`, the
destination is created/truncated, and on a streaming failure the partial
destination is closed, removed, and a wrapped error returned. -/
def writeResponseBody (fs : FS) (body : GoStr) (filename : GoStr) (mode0 : Nat)
    (oc : CopyOutcome) : FS × List Effect × Option GoError :=
  let mode := if mode0 = 0 then 0o644 else mode0
  match osOpenFileCreateTrunc fs filename mode with
  | .error e =>
    (fs, [.openWrite filename mode],
     some (wrapErr (bytes "could not create destination file " ++ quoted filename) e))
  | .ok fs1 =>
    match oc with
    | .success =>
      (setContent fs1 filename body, [.openWrite filename mode, .copyBytes filename], none)
    | .failAfter written m =>
      (osRemoveQuiet (setContent fs1 filename written) filename,
       [.openWrite filename mode, .copyBytes filename, .removeF filename],
       some (errOther (bytes "error reading request body into " ++ quoted filename ++
         bytes ": " ++ m)))

/-- Aggregated result of a remote-fetch-engine operation.  `panicked` records
a nil-pointer dereference of the Go code (no result value at all). -/
structure URLResult where
  fs : FS
  data : URLResourceData
  effects : List Effect
  diags : Diagnostics
  panicked : Bool

/-- Summary of the 401 branch of `ensureDownloadFile`. -/
def msg401 : GoStr :=
  bytes "this url requires authorization. You may need to add Authorization header to this resource"

/-- Summary of the 403 branch of `ensureDownloadFile`. -/
def msg403 : GoStr :=
  bytes "the server rejected your auth credentials. They may be expired or you may not be allowed to download this anymore."

/-- Model of `ensureDownloadFile`: build the conditional request, perform it,
and classify the response.  On a transport error the source builds
`diag.FromErr(...)` but discards the result (a missing `return`) and then
executes `defer resp.Body.Close()` with a nil response — a nil-pointer
dereference, modelled as `panicked`.  On 200 the caching headers are stored,
the body is streamed to the destination while being fingerprinted, and the
fingerprint attribute is set; 304 is a no-op; 401/403/other produce classified
error diagnostics. -/
def ensureDownloadFile (fs : FS) (d : URLResourceData) (mode : Nat)
    (http : HttpResult) (oc : CopyOutcome) : URLResult :=
  let req := makeRequest (bytes "GET") d
  match http with
  | .transportError _ => ⟨fs, d, [.httpDo req], [], true⟩
  | .response resp =>
    let dest := d.filename
    if resp.statusCode = 304 then ⟨fs, d, [.httpDo req], [], false⟩
    else if resp.statusCode = 200 then
      let d1 := { d with
        etag := headerGet resp.headers (bytes "ETag"),
        last_modified := headerGet resp.headers (bytes "Last-Modified") }
      match writeResponseBody fs resp.body dest mode oc with
      | (fs2, eff, some e) => ⟨fs2, d1, .httpDo req :: eff, fromErr e, false⟩
      | (fs2, eff, none) =>
        ⟨fs2, { d1 with content_sha256 := sha256hex resp.body },
         .httpDo req :: eff, [], false⟩
    else if resp.statusCode = 401 then
      ⟨fs, d, [.httpDo req], diagResponseError resp msg401, false⟩
    else if resp.statusCode = 403 then
      ⟨fs, d, [.httpDo req], diagResponseError resp msg403, false⟩
    else
      ⟨fs, d, [.httpDo req],
       diagResponseError resp
         (bytes "the server returned an unexpected response code: " ++ resp.status),
       false⟩

/-- Model of `resourceURLCreate`: resolve the mode (before any I/O), download,
and set the identity from the destination path. -/
def resourceURLCreate (cwd : GoStr) (fs : FS) (d : URLResourceData)
    (http : HttpResult) (oc : CopyOutcome) : URLResult :=
  match getFileMode d with
  | .error e => ⟨fs, d, [], fromErr e, false⟩
  | .ok mode =>
    let r := ensureDownloadFile fs d mode http oc
    if r.panicked then r
    else if hasError r.diags then r
    else { r with data := { r.data with id := fileToID cwd r.data.filename } }

/-- Model of `resourceURLRead`: stat the backing file at the decoded identity
(absence clears the identity), then re-run the conditional download. -/
def resourceURLRead (cwd : GoStr) (fs : FS) (d : URLResourceData)
    (http : HttpResult) (oc : CopyOutcome) : URLResult :=
  match idToFile cwd d.id with
  | .error e => ⟨fs, d, [], fromErr e, false⟩
  | .ok file =>
    match fs file with
    | .absent => ⟨fs, { d with id := [] }, [.statF file], [], false⟩
    | .inaccessible m => ⟨fs, d, [.statF file], fromErr (errOther m), false⟩
    | .present _ =>
      match getFileMode d with
      | .error e => ⟨fs, d, [.statF file], fromErr e, false⟩
      | .ok mode =>
        let r := ensureDownloadFile fs d mode http oc
        { r with effects := .statF file :: r.effects }

/-- Model of `resourceURLDelete`: decode the identity, stat the file (already
absent is success), and remove it — the same body as `resourceFileDelete`. -/
def resourceURLDelete (cwd : GoStr) (fs : FS) (d : URLResourceData) :
    FS × List Effect × Diagnostics :=
  let id := d.id
  match idToFile cwd id with
  | .error e => (fs, [], fromErr e)
  | .ok name =>
    match osStat fs name with
    | .error e =>
      if e.notExist then (fs, [.statF name], [])
      else (fs, [.statF name],
        fromErr (wrapErr (bytes "could not stat file " ++ quoted name) e))
    | .ok _ =>
      match osRemove fs name with
      | .error e =>
        (fs, [.statF name, .removeF name],
         fromErr (wrapErr (bytes "could not remove file " ++ quoted name) e))
      | .ok fs2 => (fs2, [.statF name, .removeF name], [])

example : isTextual (bytes "text/plain; charset=utf-8") = true := by decide
example : isTextual (bytes "application/ld+json") = true := by decide
example : isTextual (bytes "application/octet-stream") = false := by decide
example : isTextual (bytes "application/") = false := by decide
example : getNormalizedMediaType (bytes "application/something+") = [] := by decide
example : canonicalKey (bytes "x-foo-bar") = bytes "X-Foo-Bar" := by decide
example : parseOctal32 (bytes "0644") = .ok 420 := by decide
example : parseOctal32 (bytes "9") = .error (bytes "invalid syntax") := by decide

/-! ## Theorems -/

/-- Helper: a zero octal accumulator result characterizes all-zero digits. -/
theorem parseOctalAux_ok_zero (s : GoStr) (acc : Nat) :
    parseOctalAux s acc = .ok 0 ↔ acc = 0 ∧ ∀ c ∈ s, c = 48 := by
  induction s generalizing acc with
  | nil => simp [parseOctalAux]
  | cons c rest ih =>
    simp only [parseOctalAux]
    by_cases hc : 48 ≤ c ∧ c ≤ 55
    · rw [if_pos hc]
      by_cases hov : acc * 8 + (c - 48) < 4294967296
      · rw [if_pos hov, ih]
        constructor
        · rintro ⟨h0, hall⟩
          have hacc : acc = 0 ∧ c - 48 = 0 := by omega
          have hc48 : c = 48 := by omega
          exact ⟨hacc.1, by simpa [hc48] using hall⟩
        · rintro ⟨h0, hall⟩
          have hc48 : c = 48 := hall c (by simp)
          refine ⟨by omega, fun b hb => hall b (by simp [hb])⟩
      · rw [if_neg hov]
        simp only [reduceCtorEq, false_iff, not_and]
        intro h0 hall
        have hc48 : c = 48 := hall c (by simp)
        omega
    · rw [if_neg hc]
      simp only [reduceCtorEq, false_iff, not_and]
      intro _ hall
      have hc48 : c = 48 := hall c (by simp)
      omega

/-- C9.  Idempotent delete with an identical contract across variants: with a
decodable identity, deleting an already-absent backing file succeeds with no
diagnostics and no filesystem change; a stat failure other than not-found is
fatal; an existing backing file is removed without error — and the URL
variant's delete is extensionally identical to the local variant's. -/
theorem c9_delete_idempotent_identical :
    (∀ (cwd : GoStr) (fs : FS) (d : FileResourceData) (name : GoStr),
      idToFile cwd d.id = .ok name →
        (fs name = .absent →
          resourceFileDelete cwd fs d = (fs, [.statF name], [])) ∧
        (∀ m, fs name = .inaccessible m →
          hasError (resourceFileDelete cwd fs d).2.2 = true) ∧
        (∀ f, fs name = .present f →
          (resourceFileDelete cwd fs d).2.2 = [] ∧
          (resourceFileDelete cwd fs d).1 name = .absent)) ∧
    (∀ (cwd : GoStr) (fs : FS) (dF : FileResourceData) (dU : URLResourceData),
      dF.id = dU.id →
        resourceFileDelete cwd fs dF = resourceURLDelete cwd fs dU) := by
  constructor
  · intro cwd fs d name hid
    refine ⟨?_, ?_, ?_⟩
    · intro habs
      simp [resourceFileDelete, hid, osStat, habs, errNotExist]
    · intro m hinacc
      simp [resourceFileDelete, hid, osStat, hinacc, errOther, hasError, fromErr]
    · intro f hpres
      simp [resourceFileDelete, hid, osStat, hpres, osRemove, updateFS]
  · intro cwd fs dF dU hid
    simp only [resourceFileDelete, resourceURLDelete, hid]

/-- C9 witness: a concrete absent-file delete succeeds without diagnostics,
and the two delete variants agree on a concrete state. -/
theorem c9_witness :
    resourceFileDelete []
        (fun _ => FileState.absent)
        { id := bytes "file:///x", source := bytes "/s", destination := bytes "/x",
          file_mode := [], content_sha256 := [] } =
      ((fun _ => FileState.absent), [.statF (bytes "/x")], []) ∧
    resourceFileDelete []
        (fun _ => FileState.absent)
        { id := bytes "file:///x", source := bytes "/s", destination := bytes "/x",
          file_mode := [], content_sha256 := [] } =
      resourceURLDelete []
        (fun _ => FileState.absent)
        { id := bytes "file:///x", url := [], headers := [], filename := bytes "/x",
          file_mode := [], etag := [], last_modified := [], content_sha256 := [] } := by
  constructor
  · exact (c9_delete_idempotent_identical.1 [] (fun _ => FileState.absent)
      { id := bytes "file:///x", source := bytes "/s", destination := bytes "/x",
        file_mode := [], content_sha256 := [] } (bytes "/x") (by decide)).1 rfl
  · exact c9_delete_idempotent_identical.2 [] (fun _ => FileState.absent)
      { id := bytes "file:///x", source := bytes "/s", destination := bytes "/x",
        file_mode := [], content_sha256 := [] }
      { id := bytes "file:///x", url := [], headers := [], filename := bytes "/x",
        file_mode := [], etag := [], last_modified := [], content_sha256 := [] } rfl

/-- C10 counterexample: the `0644` fallback of `writeResponseBody` is not
reachable only for the literal string `0`: the distinct octal string `00` also
resolves to mode zero, and a mode-zero write creates the destination with
permission `0644`. -/
theorem c10_counterexample :
    getFileMode
        { id := [], url := [], headers := [], filename := bytes "/f",
          file_mode := bytes "00", etag := [], last_modified := [],
          content_sha256 := [] } = .ok 0 ∧
    bytes "00" ≠ bytes "0" ∧
    (writeResponseBody (fun _ => FileState.absent) (bytes "x") (bytes "/f") 0
        .success).1 (bytes "/f") =
      .present { content := bytes "x", mode := 0o644 } := by
  refine ⟨by decide, by decide, by decide⟩

/-- C10 (amended).  The URL variant resolves an absent `file_mode` to the
fixed constant `0664`; the zero mode that makes the `0644` fallback of
`writeResponseBody` reachable arises exactly when `file_mode` is a nonempty
string of `0` digits (not only the literal `0`); and a fetch with no
`file_mode` onto an absent destination creates the destination with mode
`0664`. -/
theorem c10_default_mode :
    (∀ d : URLResourceData, d.file_mode = [] → getFileMode d = .ok 0o664) ∧
    (∀ d : URLResourceData,
      getFileMode d = .ok 0 ↔ d.file_mode ≠ [] ∧ ∀ c ∈ d.file_mode, c = 48) ∧
    (∀ (cwd : GoStr) (fs : FS) (d : URLResourceData) (resp : HttpResponse),
      d.file_mode = [] → resp.statusCode = 200 → fs d.filename = .absent →
        (resourceURLCreate cwd fs d (.response resp) .success).fs d.filename =
          .present { content := resp.body, mode := 0o664 }) := by
  refine ⟨?_, ?_, ?_⟩
  · intro d hm
    simp [getFileMode, hm]
  · intro d
    by_cases hm : d.file_mode = []
    · simp [getFileMode, hm]
    · rcases hp : parseOctal32 d.file_mode with em | m
      · simp only [getFileMode, if_pos hm, hp]
        simp only [parseOctal32, if_neg hm] at hp
        rw [iff_iff_implies_and_implies]
        constructor
        · intro h; exact absurd h (by simp)
        · rintro ⟨-, hall⟩
          have : parseOctalAux d.file_mode 0 = .ok 0 :=
            (parseOctalAux_ok_zero d.file_mode 0).2 ⟨rfl, hall⟩
          rw [hp] at this
          exact absurd this (by simp)
      · simp only [getFileMode, if_pos hm, hp]
        simp only [parseOctal32, if_neg hm] at hp
        constructor
        · intro h
          have hm0 : m = 0 := by
            have := h
            simp only [Except.ok.injEq] at this
            omega
          rw [hm0] at hp
          exact ⟨hm, ((parseOctalAux_ok_zero d.file_mode 0).1 hp).2⟩
        · rintro ⟨-, hall⟩
          have : parseOctalAux d.file_mode 0 = .ok 0 :=
            (parseOctalAux_ok_zero d.file_mode 0).2 ⟨rfl, hall⟩
          rw [hp] at this
          simp only [Except.ok.injEq] at this
          simp [this]
  · intro cwd fs d resp hm hsc habs
    simp [resourceURLCreate, getFileMode, hm, ensureDownloadFile, hsc,
          writeResponseBody, osOpenFileCreateTrunc, habs, hasError,
          setContent, updateFS]

/-- C10 witness: with no `file_mode`, a concrete fetch resolves the mode to
`0664` and creates the destination with that mode. -/
theorem c10_witness :
    getFileMode
        { id := [], url := bytes "http://u", headers := [], filename := bytes "/f",
          file_mode := [], etag := [], last_modified := [],
          content_sha256 := [] } = .ok 0o664 ∧
    (resourceURLCreate [] (fun _ => FileState.absent)
        { id := [], url := bytes "http://u", headers := [], filename := bytes "/f",
          file_mode := [], etag := [], last_modified := [],
          content_sha256 := [] }
        (.response { statusCode := 200, status := bytes "200 OK", headers := [],
                     body := bytes "hi" })
        .success).fs (bytes "/f") =
      .present { content := bytes "hi", mode := 0o664 } := by
  constructor
  · exact c10_default_mode.1
      { id := [], url := bytes "http://u", headers := [], filename := bytes "/f",
        file_mode := [], etag := [], last_modified := [],
        content_sha256 := [] } rfl
  · exact c10_default_mode.2.2 [] (fun _ => FileState.absent)
      { id := [], url := bytes "http://u", headers := [], filename := bytes "/f",
        file_mode := [], etag := [], last_modified := [],
        content_sha256 := [] }
      { statusCode := 200, status := bytes "200 OK", headers := [],
        body := bytes "hi" } rfl rfl rfl

set_option maxRecDepth 10000 in
/-- C7 counterexample: at a concrete 401 response the engine produces exactly
the authorization-required summary, and the literal byte string `authorized`
is not a substring of that summary (it contains `authorization` instead). -/
theorem c7_counterexample :
    (ensureDownloadFile (fun _ => FileState.absent)
        { id := [], url := bytes "http://u", headers := [], filename := bytes "/f",
          file_mode := [], etag := [], last_modified := [], content_sha256 := [] }
        0o664
        (.response { statusCode := 401, status := bytes "401 Unauthorized",
                     headers := [], body := [] })
        .success).diags = [⟨.diagError, msg401, []⟩] ∧
    ¬ (bytes "authorized" <:+: msg401) := by
  refine ⟨by decide, by decide⟩

/-- C7 (amended).  A 401 response yields a single fatal diagnostic with the
authorization-required summary (whose message contains `authorization`, not
the literal `authorized`), a 403 yields a distinct credentials-rejected
summary containing `credentials`, and in both cases the response body is
attached as detail only if the content type is textual. -/
theorem c7_http_error_classification :
    (∀ (fs : FS) (d : URLResourceData) (mode : Nat) (resp : HttpResponse)
        (oc : CopyOutcome),
      resp.statusCode = 401 →
        (ensureDownloadFile fs d mode (.response resp) oc).diags =
          [⟨.diagError, msg401,
            if isTextual (headerGet resp.headers (bytes "Content-Type")) then resp.body
            else []⟩]) ∧
    (∀ (fs : FS) (d : URLResourceData) (mode : Nat) (resp : HttpResponse)
        (oc : CopyOutcome),
      resp.statusCode = 403 →
        (ensureDownloadFile fs d mode (.response resp) oc).diags =
          [⟨.diagError, msg403,
            if isTextual (headerGet resp.headers (bytes "Content-Type")) then resp.body
            else []⟩]) ∧
    (bytes "authorization" <:+: msg401) ∧
    ((bytes "forbidden" <:+: msg403) ∨ (bytes "credentials" <:+: msg403)) ∧
    msg401 ≠ msg403 ∧
    (∀ (resp : HttpResponse) (summary : GoStr),
      ∀ dg ∈ diagResponseError resp summary,
        dg.detail ≠ [] →
          isTextual (headerGet resp.headers (bytes "Content-Type")) = true) := by
  refine ⟨?_, ?_, by decide, Or.inr (by decide), by decide, ?_⟩
  · intro fs d mode resp oc hsc
    simp [ensureDownloadFile, hsc, diagResponseError]
  · intro fs d mode resp oc hsc
    simp [ensureDownloadFile, hsc, diagResponseError]
  · intro resp summary dg hdg hdetail
    simp only [diagResponseError, List.mem_singleton] at hdg
    subst hdg
    by_cases ht : isTextual (headerGet resp.headers (bytes "Content-Type"))
    · exact ht
    · simp [ht] at hdetail

/-- C7 witness: the 401 and 403 classifications at concrete textual and
non-textual responses. -/
theorem c7_witness :
    (ensureDownloadFile (fun _ => FileState.absent)
        { id := [], url := bytes "http://u", headers := [], filename := bytes "/f",
          file_mode := [], etag := [], last_modified := [], content_sha256 := [] }
        0o664
        (.response { statusCode := 401, status := bytes "401 Unauthorized",
                     headers := [(bytes "Content-Type", bytes "text/plain")],
                     body := bytes "denied" })
        .success).diags = [⟨.diagError, msg401, bytes "denied"⟩] ∧
    (ensureDownloadFile (fun _ => FileState.absent)
        { id := [], url := bytes "http://u", headers := [], filename := bytes "/f",
          file_mode := [], etag := [], last_modified := [], content_sha256 := [] }
        0o664
        (.response { statusCode := 403, status := bytes "403 Forbidden",
                     headers := [(bytes "Content-Type", bytes "application/octet-stream")],
                     body := bytes "denied" })
        .success).diags = [⟨.diagError, msg403, []⟩] := by
  constructor
  · have h := c7_http_error_classification.1 (fun _ => FileState.absent)
      { id := [], url := bytes "http://u", headers := [], filename := bytes "/f",
        file_mode := [], etag := [], last_modified := [], content_sha256 := [] }
      0o664
      { statusCode := 401, status := bytes "401 Unauthorized",
        headers := [(bytes "Content-Type", bytes "text/plain")],
        body := bytes "denied" }
      .success rfl
    rw [h]
    decide
  · have h := c7_http_error_classification.2.1 (fun _ => FileState.absent)
      { id := [], url := bytes "http://u", headers := [], filename := bytes "/f",
        file_mode := [], etag := [], last_modified := [], content_sha256 := [] }
      0o664
      { statusCode := 403, status := bytes "403 Forbidden",
        headers := [(bytes "Content-Type", bytes "application/octet-stream")],
        body := bytes "denied" }
      .success rfl
    rw [h]
    decide

/-- C3.  On a transport-level failure of the HTTP round trip the source builds
the error diagnostic but discards it (a missing `return`) and then dereferences
the nil response: every such fetch panics with no diagnostics instead of
failing fatally with an error — while, consistent with the claim, it leaves the
filesystem untouched (the destination is never opened before the response
status is classified as 200), as the unchanged-filesystem and no-write-effect
conjuncts record. -/
theorem c3_transport_error_panics :
    ∀ (fs : FS) (d : URLResourceData) (mode : Nat) (m : GoStr) (oc : CopyOutcome),
      (ensureDownloadFile fs d mode (.transportError m) oc).panicked = true ∧
      (ensureDownloadFile fs d mode (.transportError m) oc).diags = [] ∧
      (ensureDownloadFile fs d mode (.transportError m) oc).fs = fs ∧
      ∀ e ∈ (ensureDownloadFile fs d mode (.transportError m) oc).effects,
        e.isWrite = false := by
  intro fs d mode m oc
  refine ⟨rfl, rfl, rfl, ?_⟩
  intro e he
  simp only [ensureDownloadFile, List.mem_singleton] at he
  simp [he, Effect.isWrite]

set_option maxRecDepth 10000 in
/-- C2 counterexample: a plain Read of a URL resource whose backing file
exists does perform a network request. -/
theorem c2_counterexample :
    ((resourceURLRead []
        (fun p => if p = bytes "/d" then .present { content := bytes "x", mode := 0o664 }
                  else .absent)
        { id := bytes "file:///d", url := bytes "http://u", headers := [],
          filename := bytes "/d", file_mode := [], etag := [], last_modified := [],
          content_sha256 := [] }
        (.response { statusCode := 304, status := bytes "304 Not Modified",
                     headers := [], body := [] })
        .success).effects.any Effect.isNetwork) = true := by
  decide

/-- C2 (amended).  A Read of a URL resource whose backing file exists issues a
conditional network request (contrary to the no-network-on-read claim); when
the server answers 304 Not Modified, the destination file, the fingerprint,
and the cached etag/last-modified metadata are all left unchanged and no
diagnostics are produced. -/
theorem c2_read_conditional_request :
    ∀ (cwd : GoStr) (fs : FS) (d : URLResourceData) (resp : HttpResponse)
      (oc : CopyOutcome) (file : GoStr) (f : File) (mode : Nat),
      idToFile cwd d.id = .ok file →
      fs file = .present f →
      getFileMode d = .ok mode →
      resp.statusCode = 304 →
        (resourceURLRead cwd fs d (.response resp) oc).fs = fs ∧
        (resourceURLRead cwd fs d (.response resp) oc).data = d ∧
        (resourceURLRead cwd fs d (.response resp) oc).diags = [] ∧
        (resourceURLRead cwd fs d (.response resp) oc).effects.any Effect.isNetwork
          = true := by
  intro cwd fs d resp oc file f mode hid hfs hmode hsc
  simp [resourceURLRead, hid, hfs, hmode, ensureDownloadFile, hsc, Effect.isNetwork]

set_option maxRecDepth 10000 in
/-- C2 witness: the amended statement at a concrete existing file and a
concrete 304 response. -/
theorem c2_witness :
    (resourceURLRead []
        (fun p => if p = bytes "/d" then .present { content := bytes "x", mode := 0o664 }
                  else .absent)
        { id := bytes "file:///d", url := bytes "http://u", headers := [],
          filename := bytes "/d", file_mode := [], etag := bytes "abc",
          last_modified := [], content_sha256 := bytes "ff" }
        (.response { statusCode := 304, status := bytes "304 Not Modified",
                     headers := [], body := [] })
        .success).data =
      { id := bytes "file:///d", url := bytes "http://u", headers := [],
        filename := bytes "/d", file_mode := [], etag := bytes "abc",
        last_modified := [], content_sha256 := bytes "ff" } := by
  exact (c2_read_conditional_request []
    (fun p => if p = bytes "/d" then .present { content := bytes "x", mode := 0o664 }
              else .absent)
    { id := bytes "file:///d", url := bytes "http://u", headers := [],
      filename := bytes "/d", file_mode := [], etag := bytes "abc",
      last_modified := [], content_sha256 := bytes "ff" }
    { statusCode := 304, status := bytes "304 Not Modified", headers := [], body := [] }
    .success (bytes "/d") { content := bytes "x", mode := 0o664 } 0o664
    (by decide) (by decide) (by decide) rfl).2.1

/-- Helper for C8: in the local engine, an invalid `file_mode` is reported by
`ensureCopyFile` only after the source (and destination) fingerprints are
computed, so the diagnostic comes with a leading source-read effect. -/
theorem ensureCopyFile_invalid_mode (fs : FS) (d : FileResourceData)
    (oc : CopyOutcome) (em h : GoStr)
    (hm : d.file_mode ≠ []) (hp : parseOctal32 d.file_mode = .error em)
    (hs : (hashFile fs d.source).1 = .ok h) :
    (ensureCopyFile fs d oc).diags =
      [⟨.diagError, bytes "file_mode is not a valid octal number", em⟩] ∧
    (ensureCopyFile fs d oc).effects.head? = some (.openRead d.source) := by
  rcases hstat : osStat fs d.source with e | f
  · simp [hashFile, hstat] at hs
  · rcases hstat2 : osStat fs d.destination with e2 | g
    · simp [ensureCopyFile, hashFile, hstat, hstat2, hm, hp]
    · by_cases heq : sha256hex g.content = sha256hex f.content
      · simp [ensureCopyFile, hashFile, hstat, hstat2, heq, ensureFileMode, hm, hp]
      · simp [ensureCopyFile, hashFile, hstat, hstat2, heq, hm, hp]

set_option maxRecDepth 10000 in
/-- C8 counterexample: in the local engine an invalid `file_mode` is reported
only after I/O has happened — the create run below both returns the
invalid-octal diagnostic and has already opened (hashed) the source file. -/
theorem c8_counterexample :
    ((resourceFileCreate []
        (fun p => if p = bytes "/s" then .present { content := [1], mode := 0o644 }
                  else if p = bytes "/d" then .present { content := [2], mode := 0o644 }
                  else .absent)
        { id := [], source := bytes "/s", destination := bytes "/d",
          file_mode := bytes "8", content_sha256 := [] }
        .success).diags =
      [⟨.diagError, bytes "file_mode is not a valid octal number",
        bytes "invalid syntax"⟩]) ∧
    (Effect.openRead (bytes "/s")) ∈
      (resourceFileCreate []
        (fun p => if p = bytes "/s" then .present { content := [1], mode := 0o644 }
                  else if p = bytes "/d" then .present { content := [2], mode := 0o644 }
                  else .absent)
        { id := [], source := bytes "/s", destination := bytes "/d",
          file_mode := bytes "8", content_sha256 := [] }
        .success).effects := by
  refine ⟨by decide, by decide⟩

/-- C8 (amended).  In the URL engine an invalid `file_mode` fails before any
I/O: Create returns only the invalid-mode diagnostic with an empty effect
trace and an unchanged filesystem.  In the local engine an invalid `file_mode`
is also fatal with the same summary, but it is detected only after the source
and destination fingerprints are computed: the effect trace of Create and
Update starts with the source read. -/
theorem c8_invalid_mode_ordering :
    (∀ (cwd : GoStr) (fs : FS) (d : URLResourceData) (http : HttpResult)
        (oc : CopyOutcome) (em : GoStr),
      d.file_mode ≠ [] → parseOctal32 d.file_mode = .error em →
        resourceURLCreate cwd fs d http oc =
          ⟨fs, d, [],
           fromErr (errOther (bytes "file_mode is not a valid octal number")),
           false⟩) ∧
    (∀ (cwd : GoStr) (fs : FS) (d : FileResourceData) (oc : CopyOutcome)
        (em h : GoStr),
      d.file_mode ≠ [] → parseOctal32 d.file_mode = .error em →
      (hashFile fs d.source).1 = .ok h →
        (resourceFileCreate cwd fs d oc).diags =
          [⟨.diagError, bytes "file_mode is not a valid octal number", em⟩] ∧
        (resourceFileCreate cwd fs d oc).effects.head? =
          some (.openRead d.source)) ∧
    (∀ (cwd : GoStr) (fs : FS) (d : FileResourceData) (oc : CopyOutcome)
        (em h : GoStr),
      d.file_mode ≠ [] → parseOctal32 d.file_mode = .error em →
      (hashFile fs d.source).1 = .ok h →
        (resourceFileUpdate cwd fs d oc).diags =
          [⟨.diagError, bytes "file_mode is not a valid octal number", em⟩] ∧
        (resourceFileUpdate cwd fs d oc).effects.head? =
          some (.openRead d.source)) := by
  refine ⟨?_, ?_, ?_⟩
  · intro cwd fs d http oc em hm hp
    simp [resourceURLCreate, getFileMode, hm, hp]
  · intro cwd fs d oc em h hm hp hs
    have hc := ensureCopyFile_invalid_mode fs d oc em h hm hp hs
    simp [resourceFileCreate, hc.1, hc.2, hasError]
  · intro cwd fs d oc em h hm hp hs
    have hc := ensureCopyFile_invalid_mode fs d oc em h hm hp hs
    simp [resourceFileUpdate, hc.1, hc.2, hasError]

set_option maxRecDepth 10000 in
/-- C8 witness: the URL-engine half of the amended statement at a concrete
invalid mode string. -/
theorem c8_witness :
    resourceURLCreate [] (fun _ => FileState.absent)
        { id := [], url := bytes "http://u", headers := [], filename := bytes "/f",
          file_mode := bytes "8", etag := [], last_modified := [],
          content_sha256 := [] }
        (.response { statusCode := 200, status := bytes "200 OK", headers := [],
                     body := [] })
        .success =
      ⟨(fun _ => FileState.absent),
       { id := [], url := bytes "http://u", headers := [], filename := bytes "/f",
         file_mode := bytes "8", etag := [], last_modified := [],
         content_sha256 := [] },
       [], fromErr (errOther (bytes "file_mode is not a valid octal number")),
       false⟩ := by
  exact c8_invalid_mode_ordering.1 [] (fun _ => FileState.absent)
    { id := [], url := bytes "http://u", headers := [], filename := bytes "/f",
      file_mode := bytes "8", etag := [], last_modified := [],
      content_sha256 := [] }
    (.response { statusCode := 200, status := bytes "200 OK", headers := [],
                 body := [] })
    .success (bytes "invalid syntax") (by decide) (by decide)

/-- C5.  Atomicity of writes on failure: when the streaming copy into the
destination fails midway, both the local copy engine and the remote fetch
engine close and remove the partially written destination and surface an
error, so the resulting filesystem has no file at the destination path. -/
theorem c5_partial_write_cleanup :
    (∀ (fs : FS) (source destination : GoStr) (mode : Nat) (written m : GoStr)
        (f : File),
      fs source = .present f →
      (fs destination = .absent ∨ ∃ g, fs destination = .present g) →
        (copyFile fs source destination mode (.failAfter written m)).2.2.isSome
          = true ∧
        (copyFile fs source destination mode (.failAfter written m)).1 destination
          = .absent) ∧
    (∀ (fs : FS) (body filename : GoStr) (mode : Nat) (written m : GoStr),
      (fs filename = .absent ∨ ∃ g, fs filename = .present g) →
        (writeResponseBody fs body filename mode (.failAfter written m)).2.2.isSome
          = true ∧
        (writeResponseBody fs body filename mode (.failAfter written m)).1 filename
          = .absent) := by
  constructor
  · intro fs source destination mode written m f hsrc hdest
    rcases hdest with habs | ⟨g, hpres⟩
    · simp [copyFile, osStat, hsrc, osOpenFileCreateTrunc, habs, osRemoveQuiet,
            updateFS, setContent]
    · simp [copyFile, osStat, hsrc, osOpenFileCreateTrunc, hpres, osRemoveQuiet,
            updateFS, setContent]
  · intro fs body filename mode written m hdest
    rcases hdest with habs | ⟨g, hpres⟩
    · simp [writeResponseBody, osOpenFileCreateTrunc, habs, osRemoveQuiet,
            updateFS, setContent]
    · simp [writeResponseBody, osOpenFileCreateTrunc, hpres, osRemoveQuiet,
            updateFS, setContent]

/-- C5 witness: a concrete failed copy and a concrete failed fetch both
surface an error and leave no destination file. -/
theorem c5_witness :
    ((copyFile
        (fun p => if p = bytes "/s" then .present { content := [1, 2], mode := 0o644 }
                  else .absent)
        (bytes "/s") (bytes "/d") 0 (.failAfter [1] (bytes "io fail"))).2.2.isSome
      = true) ∧
    ((writeResponseBody (fun _ => FileState.absent) (bytes "body") (bytes "/f") 0
        (.failAfter [1] (bytes "io fail"))).1 (bytes "/f") = .absent) := by
  constructor
  · exact (c5_partial_write_cleanup.1
      (fun p => if p = bytes "/s" then .present { content := [1, 2], mode := 0o644 }
                else .absent)
      (bytes "/s") (bytes "/d") 0 [1] (bytes "io fail")
      { content := [1, 2], mode := 0o644 } (by decide) (Or.inl (by decide))).1
  · exact (c5_partial_write_cleanup.2 (fun _ => FileState.absent) (bytes "body")
      (bytes "/f") 0 [1] (bytes "io fail") (Or.inl rfl)).2

/-- Helper: `Header.Set` followed by `Header.Get` of the same key returns the
value just set. -/
theorem headerGet_headerSet_self (h : List (GoStr × GoStr)) (k v : GoStr) :
    headerGet (headerSet h k v) k = v := by
  by_cases hany : h.any (fun kv => kv.1 == canonicalKey k)
  · have hpf : ((fun kv : GoStr × GoStr => kv.1 == canonicalKey k) ∘
        (fun kv : GoStr × GoStr =>
          if kv.1 == canonicalKey k then (canonicalKey k, v) else kv)) =
        (fun kv : GoStr × GoStr => kv.1 == canonicalKey k) := by
      funext kv
      by_cases hkv : kv.1 = canonicalKey k <;> simp [hkv]
    have hsome : (h.find? (fun kv => kv.1 == canonicalKey k)).isSome := by
      rw [List.find?_isSome]
      exact List.any_eq_true.1 hany
    obtain ⟨kv0, hfind⟩ := Option.isSome_iff_exists.1 hsome
    have hkv0 := List.find?_some hfind
    simp only [headerSet, if_pos hany, headerGet, List.find?_map]
    rw [hpf, hfind]
    show (if kv0.1 == canonicalKey k then (canonicalKey k, v) else kv0).2 = v
    rw [if_pos hkv0]
  · have hnone : h.find? (fun kv => kv.1 == canonicalKey k) = none := by
      rw [List.find?_eq_none]
      intro x hx hpx
      exact hany (List.any_eq_true.2 ⟨x, hx, hpx⟩)
    simp [headerSet, if_neg hany, headerGet, List.find?_append, hnone, List.find?]

/-- Helper: `Header.Set` does not disturb `Header.Get` of a key with a
different canonical form. -/
theorem headerGet_headerSet_other (h : List (GoStr × GoStr)) (k k' v : GoStr)
    (hne : canonicalKey k' ≠ canonicalKey k) :
    headerGet (headerSet h k v) k' = headerGet h k' := by
  by_cases hany : h.any (fun kv => kv.1 == canonicalKey k)
  · have hpf : ((fun kv : GoStr × GoStr => kv.1 == canonicalKey k') ∘
        (fun kv : GoStr × GoStr =>
          if kv.1 == canonicalKey k then (canonicalKey k, v) else kv)) =
        (fun kv : GoStr × GoStr => kv.1 == canonicalKey k') := by
      funext kv
      by_cases hkv : kv.1 = canonicalKey k <;> simp [hkv]
    simp only [headerSet, if_pos hany, headerGet, List.find?_map]
    rw [hpf]
    rcases hfind : h.find? (fun kv => kv.1 == canonicalKey k') with _ | kv0
    · rw [hfind]
      rfl
    · rw [hfind]
      have hkv0 := List.find?_some hfind
      have hkv0' : kv0.1 = canonicalKey k' := by simpa using hkv0
      have hrepl : (if kv0.1 == canonicalKey k then (canonicalKey k, v) else kv0)
          = kv0 := by
        rw [if_neg]
        rw [hkv0']
        simpa using hne
      show (if kv0.1 == canonicalKey k then (canonicalKey k, v) else kv0).2 = kv0.2
      rw [hrepl]
  · have hck : ((canonicalKey k, v).1 == canonicalKey k') = false := by
      simpa using (Ne.symm hne)
    simp only [headerSet, if_neg hany, headerGet, List.find?_append, List.find?, hck,
      cond_false]
    rcases h.find? (fun kv => kv.1 == canonicalKey k') with _ | kv0 <;> simp

/-- Helper: projecting the header out of the custom-header fold of
`makeRequest`. -/
theorem foldl_setHeaders_header (l : List (GoStr × GoStr)) (req : HttpRequest) :
    (l.foldl (fun r kv => { r with header := headerSet r.header kv.1 kv.2 }) req).header
      = l.foldl (fun hh kv => headerSet hh kv.1 kv.2) req.header := by
  induction l generalizing req with
  | nil => rfl
  | cons a t ih =>
    simp only [List.foldl_cons]
    rw [ih]

/-- Helper: a fold of header sets whose keys all differ canonically from a
query key leaves that query unchanged. -/
theorem headerGet_foldl_of_ne (l : List (GoStr × GoStr))
    (h : List (GoStr × GoStr)) (k : GoStr)
    (hne : ∀ kv ∈ l, canonicalKey kv.1 ≠ canonicalKey k) :
    headerGet (l.foldl (fun hh kv => headerSet hh kv.1 kv.2) h) k = headerGet h k := by
  induction l generalizing h with
  | nil => rfl
  | cons a t ih =>
    simp only [List.foldl_cons]
    rw [ih _ (fun kv hkv => hne kv (List.mem_cons_of_mem a hkv))]
    exact headerGet_headerSet_other h a.1 k a.2 (hne a (List.mem_cons_self a t)).symm

/-- Helper: after folding header sets with pairwise canonically distinct keys,
each set key reads back its own value. -/
theorem headerGet_foldl_mem (l : List (GoStr × GoStr)) (h : List (GoStr × GoStr))
    (kv : GoStr × GoStr) (hmem : kv ∈ l)
    (hpw : l.Pairwise (fun a b => canonicalKey a.1 ≠ canonicalKey b.1)) :
    headerGet (l.foldl (fun hh kv2 => headerSet hh kv2.1 kv2.2) h) kv.1 = kv.2 := by
  induction l generalizing h with
  | nil => cases hmem
  | cons a t ih =>
    simp only [List.foldl_cons]
    rcases List.mem_cons.1 hmem with rfl | hmt
    · rw [headerGet_foldl_of_ne t _ kv.1
        (fun b hb => ((List.pairwise_cons.1 hpw).1 b hb).symm)]
      exact headerGet_headerSet_self h kv.1 kv.2
    · exact ih _ hmt (List.pairwise_cons.1 hpw).2

/-- C6.  Conditional request construction: with custom headers that do not
collide with the conditional keys (and are pairwise canonically distinct, as
Go map keys of distinct canonical form are), the request carries
`If-None-Match` set to the cached etag exactly when the etag is known — taking
precedence over `If-Modified-Since`, which is set to the cached timestamp only
when the etag is unknown and the timestamp is known — no conditional header
when neither is cached, and every custom header is applied verbatim with one
value per key. -/
theorem c6_conditional_headers :
    ∀ (method : GoStr) (d : URLResourceData),
      (∀ kv ∈ d.headers, canonicalKey kv.1 ≠ bytes "If-None-Match" ∧
        canonicalKey kv.1 ≠ bytes "If-Modified-Since") →
      d.headers.Pairwise (fun a b => canonicalKey a.1 ≠ canonicalKey b.1) →
        ((d.etag ≠ [] →
          headerGet (makeRequest method d).header (bytes "If-None-Match") = d.etag ∧
          headerGet (makeRequest method d).header (bytes "If-Modified-Since") = []) ∧
         (d.etag = [] → d.last_modified ≠ [] →
          headerGet (makeRequest method d).header (bytes "If-Modified-Since") =
            d.last_modified ∧
          headerGet (makeRequest method d).header (bytes "If-None-Match") = []) ∧
         (d.etag = [] → d.last_modified = [] →
          headerGet (makeRequest method d).header (bytes "If-None-Match") = [] ∧
          headerGet (makeRequest method d).header (bytes "If-Modified-Since") = []) ∧
         (∀ kv ∈ d.headers, headerGet (makeRequest method d).header kv.1 = kv.2)) := by
  intro method d hexc hpw
  have h1 : canonicalKey (bytes "If-None-Match") = bytes "If-None-Match" := by decide
  have h2 : canonicalKey (bytes "If-Modified-Since") = bytes "If-Modified-Since" := by
    decide
  have h12 : canonicalKey (bytes "If-Modified-Since") ≠
      canonicalKey (bytes "If-None-Match") := by decide
  have h21 : canonicalKey (bytes "If-None-Match") ≠
      canonicalKey (bytes "If-Modified-Since") := by decide
  by_cases he : d.etag = []
  · by_cases hm : d.last_modified = []
    · have hreq : (makeRequest method d).header =
          d.headers.foldl (fun hh kv => headerSet hh kv.1 kv.2) [] := by
        simp [makeRequest, he, hm, foldl_setHeaders_header]
      refine ⟨fun hne => absurd he hne, fun _ hne => absurd hm hne, fun _ _ => ?_, ?_⟩
      · rw [hreq]
        constructor
        · rw [headerGet_foldl_of_ne d.headers [] _
            (fun kv hkv => h1 ▸ (hexc kv hkv).1)]
          rfl
        · rw [headerGet_foldl_of_ne d.headers [] _
            (fun kv hkv => h2 ▸ (hexc kv hkv).2)]
          rfl
      · intro kv hkv
        rw [hreq]
        exact headerGet_foldl_mem d.headers [] kv hkv hpw
    · have hreq : (makeRequest method d).header =
          headerSet (d.headers.foldl (fun hh kv => headerSet hh kv.1 kv.2) [])
            (bytes "If-Modified-Since") d.last_modified := by
        simp [makeRequest, he, hm, foldl_setHeaders_header]
      refine ⟨fun hne => absurd he hne, fun _ _ => ?_, fun _ h0 => absurd h0 hm, ?_⟩
      · rw [hreq]
        constructor
        · exact headerGet_headerSet_self _ _ _
        · rw [headerGet_headerSet_other _ _ _ _ h21]
          rw [headerGet_foldl_of_ne d.headers [] _
            (fun kv hkv => h1 ▸ (hexc kv hkv).1)]
          rfl
      · intro kv hkv
        rw [hreq]
        rw [headerGet_headerSet_other _ _ _ _ (h2 ▸ (hexc kv hkv).2)]
        exact headerGet_foldl_mem d.headers [] kv hkv hpw
  · have hreq : (makeRequest method d).header =
        headerSet (d.headers.foldl (fun hh kv => headerSet hh kv.1 kv.2) [])
          (bytes "If-None-Match") d.etag := by
      simp [makeRequest, he, foldl_setHeaders_header]
    refine ⟨fun _ => ?_, fun h0 => absurd h0 he, fun h0 => absurd h0 he, ?_⟩
    · rw [hreq]
      constructor
      · exact headerGet_headerSet_self _ _ _
      · rw [headerGet_headerSet_other _ _ _ _ h12]
        rw [headerGet_foldl_of_ne d.headers [] _
          (fun kv hkv => h2 ▸ (hexc kv hkv).2)]
        rfl
    · intro kv hkv
      rw [hreq]
      rw [headerGet_headerSet_other _ _ _ _ (h1 ▸ (hexc kv hkv).1)]
      exact headerGet_foldl_mem d.headers [] kv hkv hpw

/-- C6 witness: a concrete request with a custom header and both caching
fields set carries the custom header verbatim, `If-None-Match` with the etag,
and no `If-Modified-Since`. -/
theorem c6_witness :
    headerGet (makeRequest (bytes "GET")
        { id := [], url := bytes "http://u",
          headers := [(bytes "Authorization", bytes "Bearer s")],
          filename := bytes "/f", file_mode := [], etag := bytes "abc",
          last_modified := bytes "Mon, 02 Jan 2006 15:04:05 MST",
          content_sha256 := [] }).header (bytes "If-None-Match") = bytes "abc" ∧
    headerGet (makeRequest (bytes "GET")
        { id := [], url := bytes "http://u",
          headers := [(bytes "Authorization", bytes "Bearer s")],
          filename := bytes "/f", file_mode := [], etag := bytes "abc",
          last_modified := bytes "Mon, 02 Jan 2006 15:04:05 MST",
          content_sha256 := [] }).header (bytes "If-Modified-Since") = [] ∧
    headerGet (makeRequest (bytes "GET")
        { id := [], url := bytes "http://u",
          headers := [(bytes "Authorization", bytes "Bearer s")],
          filename := bytes "/f", file_mode := [], etag := bytes "abc",
          last_modified := bytes "Mon, 02 Jan 2006 15:04:05 MST",
          content_sha256 := [] }).header (bytes "Authorization") = bytes "Bearer s" := by
  have h := c6_conditional_headers (bytes "GET")
    { id := [], url := bytes "http://u",
      headers := [(bytes "Authorization", bytes "Bearer s")],
      filename := bytes "/f", file_mode := [], etag := bytes "abc",
      last_modified := bytes "Mon, 02 Jan 2006 15:04:05 MST",
      content_sha256 := [] }
    (by intro kv hkv; simp at hkv; subst hkv; exact ⟨by decide, by decide⟩)
    (by simp)
  refine ⟨(h.1 (by decide)).1, (h.1 (by decide)).2, ?_⟩
  have h4 := h.2.2.2 (bytes "Authorization", bytes "Bearer s") (by simp)
  exact h4

set_option maxRecDepth 40000 in
/-- Helper: bytes that the path escaper leaves unescaped are printable and are
never `%`, `#`, or `?`. -/
theorem shouldEscapePath_facts :
    ∀ b, b < 256 → shouldEscapePath b = false →
      32 ≤ b ∧ b ≠ 127 ∧ b ≠ 35 ∧ b ≠ 63 ∧ b ≠ 37 := by decide

/-- Helper: uppercase hex digits are printable, are never `#` or `?`, and
decode back to their value. -/
theorem upperHexDigit_facts :
    ∀ n, n < 16 →
      32 ≤ upperHexDigit n ∧ upperHexDigit n ≠ 127 ∧ upperHexDigit n ≠ 35 ∧
      upperHexDigit n ≠ 63 ∧ unhexDigit (upperHexDigit n) = some n := by decide

/-- Helper: percent-unescaping inverts percent-escaping on byte strings. -/
theorem goUnescapePath_escapePath (p : GoStr) (hb : ∀ b ∈ p, b < 256) :
    goUnescapePath (escapePath p) = some p := by
  induction p with
  | nil => rfl
  | cons b rest ih =>
    have hb0 : b < 256 := hb b (by simp)
    have ih' := ih (fun x hx => hb x (by simp [hx]))
    by_cases hesc : shouldEscapePath b
    · have h16 : b / 16 < 16 := by omega
      have h16' : b % 16 < 16 := by omega
      have hsplit : (b / 16) * 16 + b % 16 = b := by omega
      show goUnescapePath
        ((if shouldEscapePath b then
            [37, upperHexDigit (b / 16), upperHexDigit (b % 16)]
          else [b]) ++ escapePath rest) = some (b :: rest)
      rw [if_pos hesc]
      show goUnescapePath
        (37 :: upperHexDigit (b / 16) :: upperHexDigit (b % 16) :: escapePath rest)
        = some (b :: rest)
      simp only [goUnescapePath, if_pos rfl]
      rw [(upperHexDigit_facts (b / 16) h16).2.2.2.2,
        (upperHexDigit_facts (b % 16) h16').2.2.2.2, ih']
      simp [hsplit]
    · have hfacts := shouldEscapePath_facts b hb0 (by simpa using hesc)
      show goUnescapePath
        ((if shouldEscapePath b then
            [37, upperHexDigit (b / 16), upperHexDigit (b % 16)]
          else [b]) ++ escapePath rest) = some (b :: rest)
      rw [if_neg hesc]
      show goUnescapePath (b :: escapePath rest) = some (b :: rest)
      have hne37 : ¬ b = 37 := hfacts.2.2.2.2
      rw [goUnescapePath.eq_def]
      simp only [hne37, ite_false]
      rw [ih']
      rfl

/-- Helper: every byte of an escaped path is printable and is never a control
byte, `#`, or `?`. -/
theorem escapePath_bytes (p : GoStr) (hb : ∀ b ∈ p, b < 256) :
    ∀ b ∈ escapePath p, 32 ≤ b ∧ b ≠ 127 ∧ b ≠ 35 ∧ b ≠ 63 := by
  induction p with
  | nil => simp [escapePath]
  | cons c rest ih =>
    have hc : c < 256 := hb c (by simp)
    have ih' := ih (fun x hx => hb x (by simp [hx]))
    intro b hbmem
    show 32 ≤ b ∧ b ≠ 127 ∧ b ≠ 35 ∧ b ≠ 63
    by_cases hesc : shouldEscapePath c
    · have hmem' : b ∈
          (37 :: upperHexDigit (c / 16) :: upperHexDigit (c % 16) :: escapePath rest) := by
        have : escapePath (c :: rest) =
            37 :: upperHexDigit (c / 16) :: upperHexDigit (c % 16) :: escapePath rest := by
          show ((if shouldEscapePath c then
              [37, upperHexDigit (c / 16), upperHexDigit (c % 16)]
            else [c]) ++ escapePath rest) = _
          rw [if_pos hesc]
          rfl
        rwa [this] at hbmem
      rcases List.mem_cons.1 hmem' with rfl | hmem2
      · exact ⟨by omega, by omega, by omega, by omega⟩
      rcases List.mem_cons.1 hmem2 with rfl | hmem3
      · have := upperHexDigit_facts (c / 16) (by omega)
        exact ⟨this.1, this.2.1, this.2.2.1, this.2.2.2.1⟩
      rcases List.mem_cons.1 hmem3 with rfl | hmem4
      · have := upperHexDigit_facts (c % 16) (by omega)
        exact ⟨this.1, this.2.1, this.2.2.1, this.2.2.2.1⟩
      · exact ih' b hmem4
    · have hmem' : b ∈ (c :: escapePath rest) := by
        have : escapePath (c :: rest) = c :: escapePath rest := by
          show ((if shouldEscapePath c then
              [37, upperHexDigit (c / 16), upperHexDigit (c % 16)]
            else [c]) ++ escapePath rest) = _
          rw [if_neg hesc]
          rfl
        rwa [this] at hbmem
      rcases List.mem_cons.1 hmem' with rfl | hmem2
      · have := shouldEscapePath_facts b hc (by simpa using hesc)
        exact ⟨this.1, this.2.1, this.2.2.1, this.2.2.2.1⟩
      · exact ih' b hmem2

/-- Helper: `ToSlash` is the identity on Unix. -/
theorem toSlash_id (p : GoStr) : toSlash p = p := by
  have hf : (fun b : Nat => if b = 47 then 47 else b) = id := by
    funext b
    by_cases h : b = 47 <;> simp [h]
  simp [toSlash, hf]

/-- Helper: `FromSlash` is the identity on Unix. -/
theorem fromSlash_id (p : GoStr) : fromSlash p = p := by
  have hf : (fun b : Nat => if b = 47 then 47 else b) = id := by
    funext b
    by_cases h : b = 47 <;> simp [h]
  simp [fromSlash, hf]

/-- Helper: a slash passes through the path escaper. -/
theorem escapePath_cons_slash (t : GoStr) :
    escapePath (47 :: t) = 47 :: escapePath t := by
  have h47 : shouldEscapePath 47 = false := by decide
  show ((if shouldEscapePath 47 then
      [37, upperHexDigit (47 / 16), upperHexDigit (47 % 16)]
    else [47]) ++ escapePath t) = _
  rw [if_neg (by simp [h47])]
  rfl

/-- Helper: scheme extraction on a `file://` URI. -/
theorem getScheme_file (l : GoStr) :
    getSchemeAux (bytes "file://" ++ l) [] = .found (bytes "file") (47 :: 47 :: l) := by
  show getSchemeAux (102 :: 105 :: 108 :: 101 :: 58 :: 47 :: 47 :: l) [] =
    .found [102, 105, 108, 101] (47 :: 47 :: l)
  norm_num [getSchemeAux, isAlphaB, isDigitB, goToLower, toLowerB]
  intro h
  simp at h

/-- Helper: parsing the URI the identity codec serializes recovers the scheme
`file`, an empty host, and the unescaped path. -/
theorem urlParse_fileURI (p : GoStr) (hhd : isAbs p = true) (hb : ∀ b ∈ p, b < 256) :
    urlParse (bytes "file://" ++ escapePath p) = some ⟨bytes "file", [], p⟩ := by
  obtain ⟨t, rfl⟩ : ∃ t, p = 47 :: t := by
    cases hp : p with
    | nil => rw [hp] at hhd; simp [isAbs] at hhd
    | cons a t =>
      rw [hp] at hhd
      simp [isAbs] at hhd
      exact ⟨t, by rw [hhd]⟩
  have hprops := escapePath_bytes (47 :: t) hb
  have hesc : escapePath (47 :: t) = 47 :: escapePath t := escapePath_cons_slash t
  have hall35 : ∀ b ∈ bytes "file://" ++ escapePath (47 :: t),
      (!(b == 35)) = true := by
    intro b hmem
    rcases List.mem_append.1 hmem with h1 | h2
    · have h1' : b ∈ [102, 105, 108, 101, 58, 47, 47] := h1
      simp at h1'
      simp
      omega
    · have h2' := hprops b h2
      simp
      omega
  have hcut35 : (cutAt 35 (bytes "file://" ++ escapePath (47 :: t))).1 =
      bytes "file://" ++ escapePath (47 :: t) := by
    simp only [cutAt]
    exact List.takeWhile_eq_self_iff.2 hall35
  have hctl : (bytes "file://" ++ escapePath (47 :: t)).any
      (fun b => b < 32 || b == 127) = false := by
    rw [List.any_eq_false]
    intro b hmem
    rcases List.mem_append.1 hmem with h1 | h2
    · have h1' : b ∈ [102, 105, 108, 101, 58, 47, 47] := h1
      simp at h1'
      simp
      omega
    · have h2' := hprops b h2
      simp
      omega
  have hall63 : ∀ b ∈ (47 :: 47 :: escapePath (47 :: t)), (!(b == 63)) = true := by
    intro b hmem
    rcases List.mem_cons.1 hmem with rfl | hmem2
    · decide
    rcases List.mem_cons.1 hmem2 with rfl | hmem3
    · decide
    · have h2' := hprops b hmem3
      simp
      omega
  have hcut63 : (cutAt 63 (47 :: 47 :: escapePath (47 :: t))).1 =
      47 :: 47 :: escapePath (47 :: t) := by
    simp only [cutAt]
    exact List.takeWhile_eq_self_iff.2 hall63
  have hauth_take : (escapePath (47 :: t)).takeWhile (fun b => !(b == 47)) = [] := by
    rw [hesc]
    simp [List.takeWhile_cons]
  have hauth_drop : (escapePath (47 :: t)).dropWhile (fun b => !(b == 47)) =
      escapePath (47 :: t) := by
    rw [hesc]
    simp [List.dropWhile_cons]
  have hunesc := goUnescapePath_escapePath (47 :: t) hb
  have hall63e : ∀ b ∈ escapePath (47 :: t), (!(b == 63)) = true := by
    intro b hmem
    have h2' := hprops b hmem
    simp
    omega
  have htake63 : (escapePath (47 :: t)).takeWhile (fun b => !(b == 63)) =
      escapePath (47 :: t) := List.takeWhile_eq_self_iff.2 hall63e
  simp only [urlParse, hcut35, hctl, Bool.false_eq_true, if_false, getScheme_file]
  simp only [hcut63, List.take, List.drop, htake63, hauth_take, hauth_drop, hunesc]
  have hfne : bytes "file" ≠ [] := by decide
  simp [hfne]

/-- C4 counterexample: the round trip does not recover every absolute path:
`filepath.Abs` cleans the path, so the absolute but non-clean path `/a/./b`
decodes to `/a/b`. -/
theorem c4_counterexample :
    isAbs (bytes "/a/./b") = true ∧
    idToFile [] (fileToID [] (bytes "/a/./b")) = .ok (bytes "/a/b") ∧
    bytes "/a/b" ≠ bytes "/a/./b" := by
  refine ⟨by decide, by decide, by decide⟩

/-- C4 (amended).  Identity codec round trip: for every absolute path already
in cleaned form (`filepath.Clean` fixed point; in general the round trip
returns the cleaned path), decoding the encoded identity recovers the path
exactly; and `idToFile` fails with a format error whenever the identity parses
with a scheme other than `file`. -/
theorem c4_roundtrip :
    (∀ (cwd p : GoStr), isAbs p = true → goClean p = p → (∀ b ∈ p, b < 256) →
      idToFile cwd (fileToID cwd p) = .ok p) ∧
    (∀ (cwd id : GoStr) (u : GoURL), urlParse id = some u →
      u.scheme ≠ bytes "file" → ∃ e, idToFile cwd id = .error e) := by
  constructor
  · intro cwd p habs hclean hb
    have hfid : fileToID cwd p = bytes "file://" ++ escapePath p := by
      simp only [fileToID, goAbs, habs, if_true, hclean, toSlash_id]
      rfl
    rw [hfid]
    simp only [idToFile, urlParse_fileURI p habs hb]
    rw [if_neg (by simp)]
    simp [goAbs, habs, hclean, fromSlash_id]
  · intro cwd id u hparse hscheme
    refine ⟨errOther (bytes "invalid id scheme " ++ quoted u.scheme ++
      bytes ", should be file"), ?_⟩
    simp only [idToFile, hparse]
    rw [if_pos hscheme]

/-- C4 witness: the amended round trip at a concrete clean absolute path, and
the scheme-format failure at a concrete non-`file` identity. -/
theorem c4_witness :
    idToFile [] (fileToID [] (bytes "/a/b")) = .ok (bytes "/a/b") ∧
    (∃ e, idToFile [] (bytes "http://h/a") = .error e) := by
  constructor
  · exact c4_roundtrip.1 [] (bytes "/a/b") (by decide) (by decide) (by decide)
  · exact c4_roundtrip.2 [] (bytes "http://h/a")
      ⟨bytes "http", bytes "h", bytes "/a"⟩ (by decide) (by decide)

/-- Helper: chmod never changes the fingerprint computed at any path. -/
theorem osChmod_hash (fs : FS) (p : GoStr) (m : Nat) (fs2 : FS)
    (h : osChmod fs p m = .ok fs2) (q : GoStr) :
    (hashFile fs2 q).1 = (hashFile fs q).1 := by
  rcases hp : fs p with pf | _ | msg
  · unfold osChmod at h
    rw [hp] at h
    simp only [Except.ok.injEq] at h
    subst h
    by_cases hq : q = p
    · subst hq
      simp [hashFile, osStat, updateFS, hp]
    · simp [hashFile, osStat, updateFS, hq]
  · unfold osChmod at h
    rw [hp] at h
    exact absurd h (by simp)
  · unfold osChmod at h
    rw [hp] at h
    exact absurd h (by simp)

/-- Helper: the chmod tail of `ensureFileMode` preserves fingerprints and adds
no write effect beyond the passed-in trace. -/
theorem ensureFileModeChmod_facts (fs : FS) (dest : GoStr) (destF : File)
    (mode : Nat) (eff : List Effect) :
    (∀ q, (hashFile (ensureFileModeChmod fs dest destF mode eff).1 q).1 =
      (hashFile fs q).1) ∧
    (∀ e ∈ (ensureFileModeChmod fs dest destF mode eff).2.1,
      e ∈ eff ∨ e.isWrite = false) := by
  unfold ensureFileModeChmod
  by_cases hm : mode = destF.mode
  · simp only [hm, if_pos rfl]
    exact ⟨fun q => by simp, fun e he => Or.inl he⟩
  · rw [if_neg hm]
    rcases hc : osChmod fs dest mode with e | fs2
    · refine ⟨fun q => by simp, fun e he => ?_⟩
      rcases List.mem_append.1 he with h1 | h2
      · exact Or.inl h1
      · simp only [List.mem_singleton] at h2
        subst h2
        exact Or.inr rfl
    · refine ⟨fun q => osChmod_hash fs dest mode fs2 hc q, fun e he => ?_⟩
      rcases List.mem_append.1 he with h1 | h2
      · exact Or.inl h1
      · simp only [List.mem_singleton] at h2
        subst h2
        exact Or.inr rfl

/-- Helper: permission reconciliation preserves fingerprints everywhere and
performs no write effect. -/
theorem ensureFileMode_facts (fs : FS) (d : FileResourceData) :
    (∀ q, (hashFile (ensureFileMode fs d).1 q).1 = (hashFile fs q).1) ∧
    (∀ e ∈ (ensureFileMode fs d).2.1, e.isWrite = false) := by
  rcases hd : osStat fs d.destination with e | destF
  · simp only [ensureFileMode, hd]
    exact ⟨fun q => by simp, by intro e he; simp at he; simp [he, Effect.isWrite]⟩
  · by_cases hm : d.file_mode ≠ []
    · rcases hp : parseOctal32 d.file_mode with em | m
      · simp only [ensureFileMode, hd, if_pos hm, hp]
        exact ⟨fun q => by simp, by intro e he; simp at he; simp [he, Effect.isWrite]⟩
      · simp only [ensureFileMode, hd, if_pos hm, hp]
        have hf := ensureFileModeChmod_facts fs d.destination destF m
          [.statF d.destination]
        refine ⟨hf.1, fun e he => ?_⟩
        rcases hf.2 e he with h1 | h2
        · simp only [List.mem_singleton] at h1
          simp [h1, Effect.isWrite]
        · exact h2
    · rcases hs : osStat fs d.source with e2 | srcF
      · simp only [ensureFileMode, hd, if_neg hm, hs]
        refine ⟨fun q => by simp, ?_⟩
        intro e he
        simp at he
        rcases he with h | h <;> simp [h, Effect.isWrite]
      · simp only [ensureFileMode, hd, if_neg hm, hs]
        have hf := ensureFileModeChmod_facts fs d.destination destF srcF.mode
          [.statF d.destination, .statF d.source]
        refine ⟨hf.1, fun e he => ?_⟩
        rcases hf.2 e he with h1 | h2
        · simp at h1
          rcases h1 with h | h <;> simp [h, Effect.isWrite]
        · exact h2

/-- Helper: when the two fingerprints already match, `ensureCopyFile` is
exactly the two hashing reads followed by permission reconciliation. -/
theorem ensureCopyFile_short (fs : FS) (d : FileResourceData) (oc : CopyOutcome)
    (h : GoStr)
    (hs : (hashFile fs d.source).1 = .ok h)
    (hd : (hashFile fs d.destination).1 = .ok h) :
    ensureCopyFile fs d oc =
      ⟨(ensureFileMode fs d).1, d,
       .openRead d.source :: .openRead d.destination :: (ensureFileMode fs d).2.1,
       (ensureFileMode fs d).2.2⟩ := by
  rcases hfs : fs d.source with f | _ | m1
  all_goals simp only [hashFile, osStat, hfs] at hs
  case absent => exact absurd hs (by simp)
  case inaccessible => exact absurd hs (by simp)
  rcases hfd : fs d.destination with g | _ | m2
  all_goals simp only [hashFile, osStat, hfd] at hd
  case absent => exact absurd hd (by simp)
  case inaccessible => exact absurd hd (by simp)
  simp only [Except.ok.injEq] at hs hd
  have heq : sha256hex g.content = sha256hex f.content := by rw [hs, hd]
  simp [ensureCopyFile, hashFile, osStat, hfs, hfd, heq]

/-- Helper: a successful copy records the source fingerprint and leaves source
and destination with matching fingerprints. -/
theorem ensureCopyFinish_success_sync (fs : FS) (d : FileResourceData)
    (mode : Nat) (eff : List Effect) (f : File)
    (hfsrc : fs d.source = .present f)
    (hne : d.source ≠ d.destination)
    (hdest : fs d.destination = .absent ∨ ∃ g, fs d.destination = .present g) :
    (ensureCopyFinish fs d .success mode eff (sha256hex f.content)).diags = [] ∧
    (ensureCopyFinish fs d .success mode eff (sha256hex f.content)).data =
      { d with content_sha256 := sha256hex f.content } ∧
    (hashFile (ensureCopyFinish fs d .success mode eff (sha256hex f.content)).fs
      (ensureCopyFinish fs d .success mode eff (sha256hex f.content)).data.source).1
      = .ok (sha256hex f.content) ∧
    (hashFile (ensureCopyFinish fs d .success mode eff (sha256hex f.content)).fs
      (ensureCopyFinish fs d .success mode eff
        (sha256hex f.content)).data.destination).1
      = .ok (sha256hex f.content) := by
  have hne' : ¬ (d.source = d.destination) := hne
  rcases hdest with habs | ⟨g, hpres⟩
  · simp [ensureCopyFinish, copyFile, osStat, hfsrc, osOpenFileCreateTrunc, habs,
      hashFile, setContent, updateFS, hne']
  · simp [ensureCopyFinish, copyFile, osStat, hfsrc, osOpenFileCreateTrunc, hpres,
      hashFile, setContent, updateFS, hne']

/-- Helper: the effect trace of one fingerprinting call is the single source
read, whatever the outcome. -/
theorem hashFile_snd (fs : FS) (q : GoStr) : (hashFile fs q).2 = [.openRead q] := by
  cases h : osStat fs q <;> simp [hashFile, h]

/-- Helper: copy path of the fingerprint-sync argument, destination writable. -/
theorem ensureCopyFile_copy_sync (fs : FS) (d : FileResourceData) (f : File)
    (hfsrc : fs d.source = .present f)
    (hne : d.source ≠ d.destination)
    (hcond : ¬ (hashFile fs d.destination).1 = .ok (sha256hex f.content))
    (hdest : fs d.destination = .absent ∨ ∃ g, fs d.destination = .present g)
    (hok : hasError (ensureCopyFile fs d .success).diags = false) :
    ∃ h, (hashFile (ensureCopyFile fs d .success).fs
            (ensureCopyFile fs d .success).data.source).1 = .ok h ∧
         (hashFile (ensureCopyFile fs d .success).fs
            (ensureCopyFile fs d .success).data.destination).1 = .ok h := by
  have hsp : hashFile fs d.source =
      (.ok (sha256hex f.content), [.openRead d.source]) := by
    simp [hashFile, osStat, hfsrc]
  by_cases hm : d.file_mode ≠ []
  · rcases hp : parseOctal32 d.file_mode with em | m
    · exfalso
      have hexp : (ensureCopyFile fs d .success).diags =
          [⟨.diagError, bytes "file_mode is not a valid octal number", em⟩] := by
        simp only [ensureCopyFile, hsp, hashFile_snd]
        rw [if_neg hcond, if_pos hm]
        simp only [hp]
      rw [hexp] at hok
      simp [hasError] at hok
    · have hexp : ensureCopyFile fs d .success =
          ensureCopyFinish fs d .success m
            ([.openRead d.source] ++ [.openRead d.destination])
            (sha256hex f.content) := by
        simp only [ensureCopyFile, hsp, hashFile_snd]
        rw [if_neg hcond, if_pos hm]
        simp only [hp]
      have hfin := ensureCopyFinish_success_sync fs d m
        ([.openRead d.source] ++ [.openRead d.destination]) f hfsrc hne hdest
      refine ⟨sha256hex f.content, ?_, ?_⟩ <;> rw [hexp]
      · exact hfin.2.2.1
      · exact hfin.2.2.2
  · have hexp : ensureCopyFile fs d .success =
        ensureCopyFinish fs d .success 0
          ([.openRead d.source] ++ [.openRead d.destination])
          (sha256hex f.content) := by
      simp only [ensureCopyFile, hsp, hashFile_snd]
      rw [if_neg hcond, if_neg hm]
    have hfin := ensureCopyFinish_success_sync fs d 0
      ([.openRead d.source] ++ [.openRead d.destination]) f hfsrc hne hdest
    refine ⟨sha256hex f.content, ?_, ?_⟩ <;> rw [hexp]
    · exact hfin.2.2.1
    · exact hfin.2.2.2

/-- Helper: after an error-free ensure-copy run with a successful stream, the
resulting source and destination fingerprints agree. -/
theorem ensureCopyFile_success_sync (fs : FS) (d : FileResourceData)
    (hok : hasError (ensureCopyFile fs d .success).diags = false) :
    ∃ h, (hashFile (ensureCopyFile fs d .success).fs
            (ensureCopyFile fs d .success).data.source).1 = .ok h ∧
         (hashFile (ensureCopyFile fs d .success).fs
            (ensureCopyFile fs d .success).data.destination).1 = .ok h := by
  rcases hfsrc : fs d.source with f | _ | m1
  · by_cases hcond : (hashFile fs d.destination).1 = .ok (sha256hex f.content)
    · have hs : (hashFile fs d.source).1 = .ok (sha256hex f.content) := by
        simp [hashFile, osStat, hfsrc]
      have hshort := ensureCopyFile_short fs d .success (sha256hex f.content) hs hcond
      refine ⟨sha256hex f.content, ?_, ?_⟩ <;> rw [hshort]
      · show (hashFile (ensureFileMode fs d).1 d.source).1 = .ok (sha256hex f.content)
        rw [(ensureFileMode_facts fs d).1 d.source]
        exact hs
      · show (hashFile (ensureFileMode fs d).1 d.destination).1 =
          .ok (sha256hex f.content)
        rw [(ensureFileMode_facts fs d).1 d.destination]
        exact hcond
    · have hne : d.source ≠ d.destination := by
        intro hc
        apply hcond
        rw [← hc]
        simp [hashFile, osStat, hfsrc]
      rcases hfdst : fs d.destination with g | _ | m2
      · exact ensureCopyFile_copy_sync fs d f hfsrc hne hcond (Or.inr ⟨g, hfdst⟩) hok
      · exact ensureCopyFile_copy_sync fs d f hfsrc hne hcond (Or.inl hfdst) hok
      · exfalso
        have hsp : hashFile fs d.source =
            (.ok (sha256hex f.content), [.openRead d.source]) := by
          simp [hashFile, osStat, hfsrc]
        by_cases hm : d.file_mode ≠ []
        · rcases hp : parseOctal32 d.file_mode with em | m
          · simp only [ensureCopyFile, hsp, hashFile_snd, hcond, if_false,
              ite_false, if_pos hm, hp, hasError] at hok
            simp at hok
          · simp only [ensureCopyFile, hsp, hashFile_snd, hcond, if_false,
              ite_false, if_pos hm, hp, ensureCopyFinish, copyFile, osStat, hfsrc,
              osOpenFileCreateTrunc, hfdst, fromErr, hasError] at hok
            simp at hok
        · simp only [ensureCopyFile, hsp, hashFile_snd, hcond, if_false,
            ite_false, if_neg hm, ensureCopyFinish, copyFile, osStat, hfsrc,
            osOpenFileCreateTrunc, hfdst, fromErr, hasError] at hok
          simp at hok
  · exfalso
    simp [ensureCopyFile, hashFile, osStat, hfsrc, hasError, fromErr] at hok
  · exfalso
    simp [ensureCopyFile, hashFile, osStat, hfsrc, hasError, fromErr] at hok

/-- Helper: `resourceFileCreate` only adds the identity on success; filesystem,
effects, diagnostics, and the non-identity fields pass through from
`ensureCopyFile`. -/
theorem resourceFileCreate_parts (cwd : GoStr) (fs : FS) (d : FileResourceData)
    (oc : CopyOutcome) :
    (resourceFileCreate cwd fs d oc).fs = (ensureCopyFile fs d oc).fs ∧
    (resourceFileCreate cwd fs d oc).effects = (ensureCopyFile fs d oc).effects ∧
    (resourceFileCreate cwd fs d oc).diags = (ensureCopyFile fs d oc).diags ∧
    (resourceFileCreate cwd fs d oc).data.source =
      (ensureCopyFile fs d oc).data.source ∧
    (resourceFileCreate cwd fs d oc).data.destination =
      (ensureCopyFile fs d oc).data.destination ∧
    (resourceFileCreate cwd fs d oc).data.file_mode =
      (ensureCopyFile fs d oc).data.file_mode ∧
    (resourceFileCreate cwd fs d oc).data.content_sha256 =
      (ensureCopyFile fs d oc).data.content_sha256 := by
  unfold resourceFileCreate
  by_cases h : hasError (ensureCopyFile fs d oc).diags <;> simp [h]

/-- C1.  Idempotence of the local copy engine: when the source and destination
fingerprints already match, `ensureCopyFile` performs no byte copy — its state
and diagnostics are exactly those of permission reconciliation, the resource
data is untouched, and no write effect occurs; and running Create twice with
an unchanged source and destination (the second run sees the first run's state
and data) yields an identical `content_sha256` attribute and performs no byte
copy the second time. -/
theorem c1_idempotent_create :
    (∀ (fs : FS) (d : FileResourceData) (oc : CopyOutcome) (h : GoStr),
      (hashFile fs d.source).1 = .ok h →
      (hashFile fs d.destination).1 = .ok h →
        (ensureCopyFile fs d oc).fs = (ensureFileMode fs d).1 ∧
        (ensureCopyFile fs d oc).data = d ∧
        (ensureCopyFile fs d oc).diags = (ensureFileMode fs d).2.2 ∧
        ∀ e ∈ (ensureCopyFile fs d oc).effects, e.isWrite = false) ∧
    (∀ (cwd : GoStr) (fs : FS) (d : FileResourceData),
      hasError (resourceFileCreate cwd fs d .success).diags = false →
        (resourceFileCreate cwd (resourceFileCreate cwd fs d .success).fs
            (resourceFileCreate cwd fs d .success).data .success).data.content_sha256
          = (resourceFileCreate cwd fs d .success).data.content_sha256 ∧
        ∀ e ∈ (resourceFileCreate cwd (resourceFileCreate cwd fs d .success).fs
            (resourceFileCreate cwd fs d .success).data .success).effects,
          e.isWrite = false) := by
  constructor
  · intro fs d oc h hs hd
    have hshort := ensureCopyFile_short fs d oc h hs hd
    rw [hshort]
    refine ⟨rfl, rfl, rfl, ?_⟩
    intro e he
    rcases List.mem_cons.1 he with rfl | he2
    · rfl
    rcases List.mem_cons.1 he2 with rfl | he3
    · rfl
    · exact (ensureFileMode_facts fs d).2 e he3
  · intro cwd fs d hok
    have hparts1 := resourceFileCreate_parts cwd fs d .success
    have hokE : hasError (ensureCopyFile fs d .success).diags = false := by
      rw [← hparts1.2.2.1]
      exact hok
    obtain ⟨h, hh1, hh2⟩ := ensureCopyFile_success_sync fs d hokE
    have hh1' : (hashFile (resourceFileCreate cwd fs d .success).fs
        (resourceFileCreate cwd fs d .success).data.source).1 = .ok h := by
      rw [hparts1.1, hparts1.2.2.2.1]
      exact hh1
    have hh2' : (hashFile (resourceFileCreate cwd fs d .success).fs
        (resourceFileCreate cwd fs d .success).data.destination).1 = .ok h := by
      rw [hparts1.1, hparts1.2.2.2.2.1]
      exact hh2
    have hshort := ensureCopyFile_short
      (resourceFileCreate cwd fs d .success).fs
      (resourceFileCreate cwd fs d .success).data .success h hh1' hh2'
    have hparts2 := resourceFileCreate_parts cwd
      (resourceFileCreate cwd fs d .success).fs
      (resourceFileCreate cwd fs d .success).data .success
    constructor
    · rw [hparts2.2.2.2.2.2.2, hshort]
    · intro e he
      rw [hparts2.2.1, hshort] at he
      rcases List.mem_cons.1 he with rfl | he2
      · rfl
      rcases List.mem_cons.1 he2 with rfl | he3
      · rfl
      · exact (ensureFileMode_facts _ _).2 e he3

set_option maxRecDepth 100000 in
/-- C1 witness: at a concrete matched pair the ensure-copy is pure permission
reconciliation, and at a concrete fresh destination a second Create reproduces
the first run's fingerprint. -/
theorem c1_witness :
    ((ensureCopyFile
        (fun p => if p = bytes "/s" then
            .present { content := bytes "foo", mode := 0o644 }
          else if p = bytes "/d" then
            .present { content := bytes "foo", mode := 0o644 }
          else .absent)
        { id := [], source := bytes "/s", destination := bytes "/d",
          file_mode := [], content_sha256 := [] } .success).data =
      { id := [], source := bytes "/s", destination := bytes "/d",
        file_mode := [], content_sha256 := [] }) ∧
    ((resourceFileCreate []
        ((resourceFileCreate []
          (fun p => if p = bytes "/s" then
              .present { content := bytes "foo", mode := 0o644 }
            else .absent)
          { id := [], source := bytes "/s", destination := bytes "/d",
            file_mode := [], content_sha256 := [] } .success).fs)
        ((resourceFileCreate []
          (fun p => if p = bytes "/s" then
              .present { content := bytes "foo", mode := 0o644 }
            else .absent)
          { id := [], source := bytes "/s", destination := bytes "/d",
            file_mode := [], content_sha256 := [] } .success).data)
        .success).data.content_sha256 =
      (resourceFileCreate []
        (fun p => if p = bytes "/s" then
            .present { content := bytes "foo", mode := 0o644 }
          else .absent)
        { id := [], source := bytes "/s", destination := bytes "/d",
          file_mode := [], content_sha256 := [] } .success).data.content_sha256) := by
  constructor
  · exact (c1_idempotent_create.1
      (fun p => if p = bytes "/s" then
          .present { content := bytes "foo", mode := 0o644 }
        else if p = bytes "/d" then
          .present { content := bytes "foo", mode := 0o644 }
        else .absent)
      { id := [], source := bytes "/s", destination := bytes "/d",
        file_mode := [], content_sha256 := [] } .success
      (sha256hex (bytes "foo")) (by decide) (by decide)).2.1
  · exact (c1_idempotent_create.2 []
      (fun p => if p = bytes "/s" then
          .present { content := bytes "foo", mode := 0o644 }
        else .absent)
      { id := [], source := bytes "/s", destination := bytes "/d",
        file_mode := [], content_sha256 := [] } (by decide)).1
